import Mathlib

set_option autoImplicit false

/-!
Shallow embedding of the HBnB repository (parts 2 and 3): entity models,
the in-memory repository, the part2 facade, and the part3 API handlers,
together with theorems checking the natural-language specification.

Conventions of the embedding:
* Python strings are Lean `String`, Python ints are `Int`, Python floats are
  `Rat` (every value the code manipulates is produced by exact conversions,
  so no rounding behaviour is involved in the claims below; the one
  int-to-float conversion, in the Place price setter, is modelled as the
  exact numeric embedding, which agrees with CPython for all inputs small
  enough to be represented exactly).
* Dynamically typed Python values (payload entries, the is_admin argument)
  are the inductive `PyVal`.
* A raising Python function is an `Except PyErr` function; `ValueError` and
  `TypeError` are the constructors of `PyErr`.
* Mutation is explicit state passing: the class-level `User.emails` set and
  each repository dictionary are threaded through the functions that touch
  them.  A Python dict is an association list with in-place overwrite
  (`dictSet`), preserving insertion order like CPython dicts.
-/

namespace HBnB

/-- Dynamically typed Python value, as far as the code inspects one. -/
inductive PyVal where
  | vStr (s : String)
  | vInt (n : Int)
  | vBool (b : Bool)
  | vNone
  deriving DecidableEq, Repr

/-- The two exception kinds raised by the validation code. -/
inductive PyErr where
  | valueError (msg : String)
  | typeError (msg : String)
  deriving DecidableEq, Repr

instance instDecEqExcept {ε α : Type} [DecidableEq ε] [DecidableEq α] :
    DecidableEq (Except ε α) := fun x y =>
  match x, y with
  | .ok a, .ok b =>
    if h : a = b then .isTrue (by rw [h])
    else .isFalse (fun hc => h (by injection hc))
  | .error a, .error b =>
    if h : a = b then .isTrue (by rw [h])
    else .isFalse (fun hc => h (by injection hc))
  | .ok _, .error _ => .isFalse (fun hc => Except.noConfusion hc)
  | .error _, .ok _ => .isFalse (fun hc => Except.noConfusion hc)

/-- `d[k] = v` on a Python dict (insertion-ordered association list):
overwrite in place if the key is present, append otherwise. -/
def dictSet {κ α : Type} [DecidableEq κ] (d : List (κ × α)) (k : κ) (v : α) :
    List (κ × α) :=
  match d with
  | [] => [(k, v)]
  | (k', v') :: rest =>
    if k' = k then (k, v) :: rest else (k', v') :: dictSet rest k v

/-- `d.get(k)` on a Python dict. -/
def dictGet {κ α : Type} [DecidableEq κ] (d : List (κ × α)) (k : κ) :
    Option α :=
  match d with
  | [] => none
  | (k', v') :: rest => if k' = k then some v' else dictGet rest k

/-- `k in d` on a Python dict. -/
def dictHasKey {κ α : Type} [DecidableEq κ] (d : List (κ × α)) (k : κ) :
    Bool :=
  match d with
  | [] => false
  | (k', _) :: rest => k' = k || dictHasKey rest k

/-- `del d[k]` on a Python dict (keys are unique, so removing every pair
with the key equals removing the one entry). -/
def dictDel {κ α : Type} [DecidableEq κ] (d : List (κ × α)) (k : κ) :
    List (κ × α) :=
  d.filter (fun kv => kv.1 ≠ k)


-- ---------------------------------------------------------------------
-- The email regular expression shared by both User model revisions:
-- re.match of the pattern  [^@]+@[^@]+\.[^@]+  (an unanchored-at-the-end
-- prefix match).  It succeeds iff the string starts with one or more
-- non-at characters, an at sign, one or more non-at characters, a dot,
-- and at least one further non-at character.
-- ---------------------------------------------------------------------

/-- All characters differ from the at sign. -/
def noAt (l : List Char) : Bool := l.all (fun c => c ≠ '@')

/-- Does the tail (the part after the at sign) have a prefix matching
the sub-pattern of one or more non-at characters, a dot, and one more
non-at character? -/
def emailTailMatch (l : List Char) : Bool :=
  (List.range l.length).any fun j =>
    decide (1 ≤ j) && (l.get? j == some '.') && noAt (l.take j) &&
      (match l.get? (j + 1) with
       | some c => c ≠ '@'
       | none => false)

/-- Model of `re.match(r"[^@]+@[^@]+\.[^@]+", value)` being truthy. -/
def emailMatch (s : String) : Bool :=
  let l := s.data
  (List.range l.length).any fun i =>
    decide (1 ≤ i) && (l.get? i == some '@') && noAt (l.take i) &&
      emailTailMatch (l.drop (i + 1))

-- ---------------------------------------------------------------------
-- BaseModel validation helpers (part3 hbnb app/models/base_model.py).
-- ---------------------------------------------------------------------

/-- `BaseModel.is_max_length`: raises ValueError when the string exceeds
the maximum length. -/
def is_max_length (name : String) (value : String) (maxLength : Nat) :
    Except PyErr Unit :=
  if value.length > maxLength then
    .error (.valueError (name ++ " exceeds maximum length"))
  else .ok ()

/-- `BaseModel.is_in_range` instantiated at floats (used by the Place
latitude and longitude setters): raises ValueError unless
min < value < max, both bounds exclusive. -/
def is_in_rangeQ (name : String) (value min max : Rat) :
    Except PyErr Unit :=
  if ¬ (min < value ∧ value < max) then
    .error (.valueError (name ++ " must be between the bounds"))
  else .ok ()

/-- `BaseModel.is_in_range` instantiated at integers (the rating check of
the part3 app model revision applies it to an int with bounds 0 and 6):
raises ValueError unless min < value < max, both bounds exclusive. -/
def is_in_rangeI (name : String) (value min max : Int) :
    Except PyErr Unit :=
  if ¬ (min < value ∧ value < max) then
    .error (.valueError (name ++ " must be between the bounds"))
  else .ok ()

-- ---------------------------------------------------------------------
-- Review rating validation, both revisions (claim C4).
-- part3/hbnb/app/models/review.py  : explicit 1 <= rating <= 5 check.
-- part3/app/models/review.py      : super().is_in_range('Rating', v, 0, 6).
-- The argument is an int in both cases (the isinstance int guard has
-- already passed once the value is an `Int`).
-- ---------------------------------------------------------------------

/-- `Review.validate_rating` of part3/hbnb: TypeError on non-int is ruled
out by the `Int` argument type; ValueError unless 1 <= rating <= 5. -/
def validate_rating (value : Int) : Except PyErr Unit :=
  if ¬ (1 ≤ value ∧ value ≤ 5) then
    .error (.valueError "Rating must be between 1 and 5")
  else .ok ()

/-- The rating setter of the part3/app revision: after the isinstance int
guard, delegates to the exclusive-range check with bounds 0 and 6. -/
def rating_setter_check (value : Int) : Except PyErr Unit :=
  is_in_rangeI "Rating" value 0 6

-- ---------------------------------------------------------------------
-- InMemoryRepository (part3/hbnb/app/persistence/repository.py).
-- The same file backs part2 (whose persistence module is identical in
-- interface per the repository spec section 4.1 and is the file the
-- claims cite).  `_storage` is the threaded dict; entity ids are
-- modelled as naturals handed out by a freshness counter in the states
-- below (uuid4 produces a fresh identifier).  `update` receives the
-- entity-level `obj.update(data)` merge as a function argument because
-- the repository is generic over the entity class.
-- ---------------------------------------------------------------------

namespace InMemoryRepository

/-- `add(self, obj)`: `self._storage[obj.id] = obj`.  No collision check
of any kind is performed; an existing entry under the same id is
silently overwritten, and no exception path exists in the body. -/
def add {κ α : Type} [DecidableEq κ] (idOf : α → κ)
    (storage : List (κ × α)) (obj : α) : List (κ × α) :=
  dictSet storage (idOf obj) obj

/-- `get(self, obj_id)`: `self._storage.get(obj_id)`. -/
def get {κ α : Type} [DecidableEq κ] (storage : List (κ × α)) (objId : κ) :
    Option α :=
  dictGet storage objId

/-- `get_all(self)`: `list(self._storage.values())`. -/
def get_all {κ α : Type} (storage : List (κ × α)) : List α :=
  storage.map Prod.snd

/-- `update(self, obj_id, data)`: fetch, and merge via the entity method
`obj.update(data)` when present (a no-op otherwise).  The in-place
mutation of the aliased object is modelled by writing the merged object
back under its key. -/
def update {κ α : Type} [DecidableEq κ]
    (objUpdate : α → List (String × PyVal) → α)
    (storage : List (κ × α)) (objId : κ) (data : List (String × PyVal)) :
    List (κ × α) :=
  match dictGet storage objId with
  | none => storage
  | some obj => dictSet storage objId (objUpdate obj data)

/-- `delete(self, obj_id)`: `del` when the key is present. -/
def delete {κ α : Type} [DecidableEq κ] (storage : List (κ × α))
    (objId : κ) : List (κ × α) :=
  if dictHasKey storage objId then dictDel storage objId else storage

/-- `get_by_attribute(self, attr_name, attr_value)`: first stored object
whose named attribute equals the value; the attribute read
`getattr(obj, attr_name, None)` is supplied as a function. -/
def get_by_attribute {κ α : Type} (attr : α → PyVal)
    (storage : List (κ × α)) (value : PyVal) : Option α :=
  (storage.map Prod.snd).find? (fun obj => attr obj == value)

end InMemoryRepository

/-- A minimal concrete entity for the repository claims: an id plus one
payload field standing for the rest of the record. -/
structure Entity where
  id : Nat
  payload : String
  deriving DecidableEq, Repr

-- ---------------------------------------------------------------------
-- part2 User model (part2/hbnb/app/models/user.py): property setters,
-- plus the class-level `User.emails` set shared by every instance.
-- The set is modelled as a duplicate-free list threaded through every
-- function that reads or writes it.  Attributes assigned through raw
-- `setattr` under keys that have no property are collected in `extra`
-- (the claims never read them back).
-- ---------------------------------------------------------------------

structure User2 where
  id : Nat
  first_name : String
  last_name : String
  email : String
  is_admin : Bool
  extra : List (String × PyVal)
  deriving DecidableEq, Repr

/-- `set.add` on the emails set. -/
def emailsAdd (emails : List String) (e : String) : List String :=
  if e ∈ emails then emails else emails ++ [e]

/-- `set.discard` on the emails set. -/
def emailsDiscard (emails : List String) (e : String) : List String :=
  emails.erase e

/-- The first and last name setters share this shape: isinstance str
check, then the length bound via `is_max_length`. -/
def user2_str_field (name : String) (maxLen : Nat) (v : PyVal) :
    Except PyErr String :=
  match v with
  | .vStr s =>
    match is_max_length name s maxLen with
    | .error e => .error e
    | .ok _ => .ok s
  | _ => .error (.typeError (name ++ " must be a string"))

/-- The email setter on a fresh object (no `_email` attribute yet):
isinstance, format, membership in the class set, then assignment plus
`User.emails.add`. -/
def user2_email_init (emails : List String) (v : PyVal) :
    Except PyErr (String × List String) :=
  match v with
  | .vStr s =>
    if emailMatch s then
      if s ∈ emails then .error (.valueError "Email already exists")
      else .ok (s, emailsAdd emails s)
    else .error (.valueError "Invalid email format")
  | _ => .error (.typeError "Email must be a string")

/-- The email setter on an already-initialised object: isinstance,
format, the changed-and-taken check, then discard of the old email and
add of the new one. -/
def user2_email_set (emails : List String) (current : String) (v : PyVal) :
    Except PyErr (String × List String) :=
  match v with
  | .vStr s =>
    if emailMatch s then
      if current ≠ s ∧ s ∈ emails then
        .error (.valueError "Email already exists")
      else .ok (s, emailsAdd (emailsDiscard emails current) s)
    else .error (.valueError "Invalid email format")
  | _ => .error (.typeError "Email must be a string")

/-- The is_admin setter: isinstance bool. -/
def user2_is_admin_set (v : PyVal) : Except PyErr Bool :=
  match v with
  | .vBool b => .ok b
  | _ => .error (.typeError "Is Admin must be a boolean")

/-- part2 `User.__init__`: the setters run in source order (first name,
last name, email, is_admin), so the class-level emails set is already
mutated when a later setter raises; the possibly-mutated set is
returned alongside the outcome.  The uuid4 id is the fresh natural
supplied by the caller. -/
def User2.construct (emails : List String) (uid : Nat)
    (first last email adm : PyVal) : (Except PyErr User2) × List String :=
  match user2_str_field "First name" 50 first with
  | .error e => (.error e, emails)
  | .ok fn =>
    match user2_str_field "Last name" 50 last with
    | .error e => (.error e, emails)
    | .ok ln =>
      match user2_email_init emails email with
      | .error e => (.error e, emails)
      | .ok (em, emails') =>
        match user2_is_admin_set adm with
        | .error e => (.error e, emails')
        | .ok b => (.ok ⟨uid, fn, ln, em, b, []⟩, emails')

/-- The part2 facade state: the class-level emails set, the user
repository storage, and the freshness counter standing for uuid4. -/
structure P2State where
  emails : List String
  user_repo : List (Nat × User2)
  nextId : Nat
  deriving DecidableEq, Repr

namespace HBnBFacade

/-- part2 `HBnBFacade.create_user`: construct (which validates and
touches the class-level emails set), then `self.user_repo.add(user)`.
A construction error propagates and the repository is never touched. -/
def create_user (s : P2State) (first last email adm : PyVal) :
    (Except PyErr User2) × P2State :=
  match User2.construct s.emails s.nextId first last email adm with
  | (.error e, emails') =>
    (.error e, { s with emails := emails', nextId := s.nextId + 1 })
  | (.ok u, emails') =>
    (.ok u, { emails := emails',
              user_repo := InMemoryRepository.add User2.id s.user_repo u,
              nextId := s.nextId + 1 })

/-- part2 `HBnBFacade.get_user_by_email`:
`self.user_repo.get_by_attribute('email', email)`. -/
def get_user_by_email (s : P2State) (e : String) : Option User2 :=
  InMemoryRepository.get_by_attribute (fun u => PyVal.vStr u.email)
    s.user_repo (PyVal.vStr e)

end HBnBFacade

/-- Raw `setattr(user, key, value)` on a part2 User: property setters run
for the four property-backed attributes, any other key becomes a plain
attribute. -/
def user2_setattr (emails : List String) (u : User2) (key : String)
    (v : PyVal) : (Except PyErr User2) × List String :=
  if key = "first_name" then
    (match user2_str_field "First name" 50 v with
     | .ok s => .ok { u with first_name := s }
     | .error e => .error e, emails)
  else if key = "last_name" then
    (match user2_str_field "Last name" 50 v with
     | .ok s => .ok { u with last_name := s }
     | .error e => .error e, emails)
  else if key = "email" then
    match user2_email_set emails u.email v with
    | .ok (s, em') => (.ok { u with email := s }, em')
    | .error e => (.error e, emails)
  else if key = "is_admin" then
    (match user2_is_admin_set v with
     | .ok b => .ok { u with is_admin := b }
     | .error e => .error e, emails)
  else (.ok { u with extra := dictSet u.extra key v }, emails)

/-- The `for key, value in user_data.items(): setattr(user, key, value)`
loop of the part2 facade update methods: attributes set before a raising
key keep their new values (the object is mutated in place); the first
error stops the loop and propagates. -/
def user2_merge (emails : List String) (u : User2)
    (data : List (String × PyVal)) : User2 × List String × Option PyErr :=
  match data with
  | [] => (u, emails, none)
  | (k, v) :: rest =>
    match user2_setattr emails u k v with
    | (.ok u', em') => user2_merge em' u' rest
    | (.error e, em') => (u, em', some e)

/-- A positional argument of a call to the repository method
`update(self, obj_id, data)`.  The part2 facade passes the entity
object itself as the only argument. -/
inductive CallArg (α : Type) where
  | idKey (k : Nat)
  | payload (d : List (String × PyVal))
  | obj (a : α)

/-- Calling the two-parameter method `update(self, obj_id, data)` with a
positional argument list: binding fails with TypeError unless exactly
two arguments are given.  When both bind, the body runs; only the
id-plus-payload shape is ever both bound and able to hit the store (a
non-id obj_id misses the dict lookup). -/
def repo_update_call {α : Type}
    (objUpdate : α → List (String × PyVal) → α)
    (storage : List (Nat × α)) (args : List (CallArg α)) :
    Except PyErr (List (Nat × α)) :=
  match args with
  | [a, b] =>
    .ok (match a, b with
      | .idKey k, .payload d =>
        InMemoryRepository.update objUpdate storage k d
      | _, _ => storage)
  | _ =>
    .error (.typeError
      "update() missing 1 required positional argument: data")

/-- part2 `HBnBFacade.update_user`: fetch, mutate the fetched object via
the setattr loop, then call `self.user_repo.update(user)` — a single
positional argument for a two-parameter method.  The entity merge
passed on to the repository body is the identity placeholder: that body
is unreachable from this call site, which never binds both parameters. -/
def HBnBFacade.update_user (s : P2State) (user_id : Nat)
    (data : List (String × PyVal)) :
    (Except PyErr (Option User2)) × P2State :=
  match dictGet s.user_repo user_id with
  | none => (.ok none, s)
  | some u =>
    let m := user2_merge s.emails u data
    let s' : P2State := { s with emails := m.2.1,
                                 user_repo := dictSet s.user_repo user_id m.1 }
    match m.2.2 with
    | some e => (.error e, s')
    | none =>
      match repo_update_call (fun a _ => a) s'.user_repo
          [CallArg.obj m.1] with
      | .error e => (.error e, s')
      | .ok st => (.ok (some m.1), { s' with user_repo := st })

/-- The shared shape of all four part2 facade update methods
(update_user, update_amenity, update_place, update_review): fetch,
return None when absent, mutate the fetched entity through a setattr
loop (`merge`), then call the two-parameter repository update with the
entity as the only argument. -/
def p2_facade_update {α : Type}
    (merge : α → List (String × PyVal) → α × Option PyErr)
    (storage : List (Nat × α)) (oid : Nat)
    (data : List (String × PyVal)) :
    (Except PyErr (Option α)) × List (Nat × α) :=
  match dictGet storage oid with
  | none => (.ok none, storage)
  | some obj =>
    let m := merge obj data
    let storage' := dictSet storage oid m.1
    match m.2 with
    | some e => (.error e, storage')
    | none =>
      match repo_update_call (fun a _ => a) storage' [CallArg.obj m.1] with
      | .error e => (.error e, storage')
      | .ok st => (.ok (some m.1), st)

-- ---------------------------------------------------------------------
-- part3 User model (part3/hbnb/app/models/user.py): plain SQLAlchemy
-- columns with validation methods invoked only by __init__; assignment
-- to a column attribute performs no validation.
-- ---------------------------------------------------------------------

structure User3 where
  id : Nat
  first_name : String
  last_name : String
  email : String
  password_hash : String
  is_admin : Bool
  deriving DecidableEq, Repr

/-- Abstract stand-in for `bcrypt.generate_password_hash(...)`: the
claims only carry the hash around, never invert or compare it. -/
def bcrypt_hash (password : String) : String := "bcrypt$" ++ password

/-- part3 `User.validate_first_name` (no non-empty requirement). -/
def validate_first_name (v : String) : Except PyErr Unit :=
  if v.length > 50 then
    .error (.valueError "First name exceeds maximum length of 50")
  else .ok ()

/-- part3 `User.validate_last_name`. -/
def validate_last_name (v : String) : Except PyErr Unit :=
  if v.length > 50 then
    .error (.valueError "Last name exceeds maximum length of 50")
  else .ok ()

/-- part3 `User.validate_email`: the format regular expression only. -/
def validate_email3 (v : String) : Except PyErr Unit :=
  if emailMatch v then .ok ()
  else .error (.valueError "Invalid email format")

/-- part3 `User.__init__`: validate first name, last name and email,
then assign the columns and hash the password. -/
def User3.construct (uid : Nat) (first last email password : String)
    (adm : Bool) : Except PyErr User3 :=
  match validate_first_name first with
  | .error e => .error e
  | .ok _ =>
    match validate_last_name last with
    | .error e => .error e
    | .ok _ =>
      match validate_email3 email with
      | .error e => .error e
      | .ok _ => .ok ⟨uid, first, last, email, bcrypt_hash password, adm⟩

/-- The part3 user-store state: repository storage plus the freshness
counter standing for uuid4. -/
structure P3State where
  user_repo : List (Nat × User3)
  nextId : Nat
  deriving DecidableEq, Repr

/-- Modelled from the spec: the part3 facade module (app/services) is
absent from the source tree; per spec section 4.2 each create method
constructs the entity (triggering field validation) and then delegates
to the repository add. -/
def p3_create_user (s : P3State) (first last email password : String)
    (adm : Bool) : (Except PyErr User3) × P3State :=
  match User3.construct s.nextId first last email password adm with
  | .error e => (.error e, { s with nextId := s.nextId + 1 })
  | .ok u =>
    (.ok u, { user_repo := InMemoryRepository.add User3.id s.user_repo u,
              nextId := s.nextId + 1 })

/-- Modelled from the spec: facade `get_user(id)` is a repository point
lookup. -/
def p3_get_user (s : P3State) (uid : Nat) : Option User3 :=
  InMemoryRepository.get s.user_repo uid

/-- Modelled from the spec: facade `get_user_by_email` delegates to
`get_by_attribute('email', email)` — first match in storage order. -/
def p3_get_user_by_email (s : P3State) (e : String) : Option User3 :=
  InMemoryRepository.get_by_attribute (fun u => PyVal.vStr u.email)
    s.user_repo (PyVal.vStr e)

/-- A JSON payload for the part3 user endpoints, with each key optional
(the handler only inspects key presence and the email value). -/
structure UserPayload where
  first_name : Option String
  last_name : Option String
  email : Option String
  password : Option String
  is_admin : Option Bool
  deriving DecidableEq, Repr

/-- `BaseModel.update(data)` applied to a part3 User: each payload key
that names an existing attribute is assigned without validation; the
`password` key is skipped because the mapped class has no such
attribute (only `password_hash`). -/
def user3_apply_payload (u : User3) (p : UserPayload) : User3 :=
  { u with first_name := p.first_name.getD u.first_name,
           last_name := p.last_name.getD u.last_name,
           email := p.email.getD u.email,
           is_admin := p.is_admin.getD u.is_admin }

/-- Modelled from the spec: facade `update_user(id, data)` delegates to
the repository update (fetch, merge via the entity update, write back;
no-op when the id is absent). -/
def p3_update_user (s : P3State) (uid : Nat) (p : UserPayload) : P3State :=
  { s with user_repo :=
      match dictGet s.user_repo uid with
      | none => s.user_repo
      | some u => dictSet s.user_repo uid (user3_apply_payload u p) }

/-- Outcome of a handler: an HTTP status code, or an uncaught exception
propagating out of the handler body. -/
inductive HRes where
  | resp (code : Nat)
  | raised (e : PyErr)
  deriving DecidableEq, Repr

/-- part3 `UserList.post` (admin-only registration): 403 for non-admin
claims, 400 when the email is already registered (the uniqueness
pre-check lives here, in the handler), then facade creation. -/
def userListPost (s : P3State) (is_admin : Bool)
    (first last email password : String) (adm : Bool) : HRes × P3State :=
  if ¬ is_admin then (.resp 403, s)
  else
    match p3_get_user_by_email s email with
    | some _ => (.resp 400, s)
    | none =>
      match p3_create_user s first last email password adm with
      | (.error e, s') => (.raised e, s')
      | (.ok _, s') => (.resp 201, s')

/-- part3 `UserResource.put`: 404 when the target is absent; admins may
update anyone subject to the email-collision check; a non-admin caller
may only target itself and may not send the email or password keys. -/
def userResourcePut (s : P3State) (caller : Nat) (is_admin : Bool)
    (target : Nat) (p : UserPayload) : HRes × P3State :=
  match dictGet s.user_repo target with
  | none => (.resp 404, s)
  | some _ =>
    if is_admin then
      match p.email with
      | some e =>
        match p3_get_user_by_email s e with
        | some existing =>
          if existing.id ≠ target then (.resp 400, s)
          else (.resp 200, p3_update_user s target p)
        | none => (.resp 200, p3_update_user s target p)
      | none => (.resp 200, p3_update_user s target p)
    else if caller ≠ target then (.resp 403, s)
    else if p.email.isSome || p.password.isSome then (.resp 400, s)
    else (.resp 200, p3_update_user s target p)

-- ---------------------------------------------------------------------
-- part3 review endpoint (part3/hbnb/app/api/v1/reviews.py) over a
-- relational state: users, places with owners, and the review
-- repository.  The object graph the handler navigates (place.owner.id,
-- place.reviews, review.user.id) is the SQLAlchemy backref view of
-- this state: place.reviews collects the stored reviews whose place_id
-- matches, and review.user.id is the review's user_id column.
-- ---------------------------------------------------------------------

structure PlaceRec where
  pid : Nat
  owner_id : Nat
  deriving DecidableEq, Repr

structure RevRec where
  rid : Nat
  text : String
  rating : Int
  place_id : Nat
  user_id : Nat
  deriving DecidableEq, Repr

structure RState where
  users : List Nat
  places : List PlaceRec
  review_repo : List (Nat × RevRec)
  nextId : Nat
  deriving DecidableEq, Repr

/-- part3 `Review.validate_text`: `if not value` — the empty string is
the falsy string. -/
def validate_text (t : String) : Except PyErr Unit :=
  if t = "" then .error (.valueError "Text cannot be empty") else .ok ()

/-- part3/hbnb `Review.__init__`: validate text and rating, then assign
the columns. -/
def Review.construct (rid : Nat) (text : String) (rating : Int)
    (place_id user_id : Nat) : Except PyErr RevRec :=
  match validate_text text with
  | .error e => .error e
  | .ok _ =>
    match validate_rating rating with
    | .error e => .error e
    | .ok _ => .ok ⟨rid, text, rating, place_id, user_id⟩

/-- Modelled from the spec (facade absent): `get_place` is a repository
point lookup; with the relational state this is the first stored place
with the id. -/
def get_place (s : RState) (pid : Nat) : Option PlaceRec :=
  s.places.find? (fun p => p.pid == pid)

/-- The `place.reviews` backref: stored reviews of the place. -/
def place_reviews (s : RState) (pid : Nat) : List RevRec :=
  (s.review_repo.map Prod.snd).filter (fun r => r.place_id == pid)

/-- Modelled from the spec: facade `create_review` must check that the
review's place and user reference existing entities (section 4.2) and
returns a falsy result otherwise (the handler maps that to 400);
otherwise it constructs the Review — triggering the part3/hbnb model
validation, whose exceptions propagate — and adds it to the repository. -/
def p3_create_review (s : RState) (text : String) (rating : Int)
    (place_id user_id : Nat) : Except PyErr (Option (RevRec × RState)) :=
  if s.users.contains user_id && (get_place s place_id).isSome then
    match Review.construct s.nextId text rating place_id user_id with
    | .error e => .error e
    | .ok r =>
      .ok (some (r,
        { s with
          review_repo := (InMemoryRepository.add RevRec.rid s.review_repo r),
          nextId := s.nextId + 1 }))
  else .ok none

/-- part3 `ReviewList.post`: the payload user_id is overwritten with the
JWT identity; 404 when the place is missing; for non-admin callers, 400
on self-review and 400 when the caller already has a review among
`place.reviews`; then facade creation (falsy result mapped to 400,
validation exceptions propagating uncaught). -/
def reviewListPost (s : RState) (current_user : Nat) (is_admin : Bool)
    (text : String) (rating : Int) (place_id : Nat) : HRes × RState :=
  match get_place s place_id with
  | none => (.resp 404, s)
  | some place =>
    if ¬ is_admin ∧ place.owner_id = current_user then (.resp 400, s)
    else if ¬ is_admin ∧
        ((place_reviews s place_id).filter
          (fun r => r.user_id == current_user)) ≠ [] then
      (.resp 400, s)
    else
      match p3_create_review s text rating place_id current_user with
      | .error e => (.raised e, s)
      | .ok none => (.resp 400, s)
      | .ok (some (_, s')) => (.resp 201, s')

/-- The (user, place) pairs of the stored reviews. -/
def reviewPairs (s : RState) : List (Nat × Nat) :=
  (s.review_repo.map Prod.snd).map (fun r => (r.user_id, r.place_id))

/-- The review-system invariant of the spec: review ids are below the
freshness counter, at most one review per (user, place) pair, no review
authored by the owner of the reviewed place, and place ids are unique. -/
def RInv (s : RState) : Prop :=
  (∀ k ∈ s.review_repo.map Prod.fst, k < s.nextId) ∧
    (reviewPairs s).Nodup ∧
    (∀ r ∈ s.review_repo.map Prod.snd, ∀ p ∈ s.places,
      p.pid = r.place_id → p.owner_id ≠ r.user_id) ∧
    (s.places.map PlaceRec.pid).Nodup

/-- One authenticated non-admin POST /reviews/ request. -/
structure ReviewReq where
  caller : Nat
  text : String
  rating : Int
  place_id : Nat

/-- State reached after serving one non-admin review post. -/
def reviewStep (s : RState) (q : ReviewReq) : RState :=
  (reviewListPost s q.caller false q.text q.rating q.place_id).snd

-- ---------------------------------------------------------------------
-- The authorization decision (claim C9), extracted as pure functions.
-- ---------------------------------------------------------------------

inductive Decision where
  | allow
  | reject (code : Nat)
  deriving DecidableEq, Repr

/-- The guard phase of `ReviewList.post` as a pure function of the admin
claim, the caller identity, the owner of the target place (absent when
the place is missing) and the identities that already reviewed it. -/
def decide_review_post (is_admin : Bool) (caller : Nat)
    (owner : Option Nat) (reviewer_ids : List Nat) : Decision :=
  match owner with
  | none => .reject 404
  | some o =>
    if ¬ is_admin ∧ o = caller then .reject 400
    else if ¬ is_admin ∧ reviewer_ids.contains caller then .reject 400
    else .allow

/-- Projection: the owner of the place a review request targets. -/
def review_owner_proj (s : RState) (pid : Nat) : Option Nat :=
  (get_place s pid).map PlaceRec.owner_id

/-- Projection: the identities that already reviewed the place. -/
def review_reviewers_proj (s : RState) (pid : Nat) : List Nat :=
  (place_reviews s pid).map RevRec.user_id

/-- The guard phase of `UserResource.put` as a pure function of the
admin claim, caller and target identities, target existence, the two
guarded payload keys, and the email-collision bit read from the store. -/
def decide_user_put (is_admin : Bool) (caller target : Nat)
    (targetExists : Bool) (emailKey : Option String) (passwordKey : Bool)
    (collides : Bool) : Decision :=
  if ¬ targetExists then .reject 404
  else if is_admin then
    match emailKey with
    | some _ => if collides then .reject 400 else .allow
    | none => .allow
  else if caller ≠ target then .reject 403
  else if emailKey.isSome || passwordKey then .reject 400
  else .allow

/-- Projection: does the requested email belong to a different stored
user (the handler's collision test)? -/
def user_put_collides (s : P3State) (target : Nat)
    (emailKey : Option String) : Bool :=
  match emailKey with
  | some e =>
    match p3_get_user_by_email s e with
    | some ex => ex.id ≠ target
    | none => false
  | none => false

-- ---------------------------------------------------------------------
-- part3 Place model (part3/hbnb/app/models/place.py), for the
-- round-trip claim: property setters with validation; the price setter
-- stores `float(value)`.
-- ---------------------------------------------------------------------

/-- A Python number: an int or a float.  `float(value)` on an int is
modelled as the exact rational embedding (exact in CPython whenever the
magnitude stays below 2^53, which covers every value used here). -/
inductive PyNum where
  | pyInt (n : Int)
  | pyFloat (q : Rat)
  deriving DecidableEq, Repr

/-- `float(value)` applied to a number. -/
def pyFloatFn : PyNum → Rat
  | .pyInt n => (n : Rat)
  | .pyFloat q => q

/-- `value < 0` on a number. -/
def pyNumNeg : PyNum → Bool
  | .pyInt n => n < 0
  | .pyFloat q => q < 0

structure Place3 where
  title : String
  description : Option String
  price : Rat
  latitude : Rat
  longitude : Rat
  owner : User3
  reviews : List RevRec
  amenities : List String
  deriving DecidableEq, Repr

/-- Place title setter: non-empty (string falsiness), isinstance (by
typing), length at most 100. -/
def place_set_title (v : String) : Except PyErr String :=
  if v = "" then .error (.valueError "Title cannot be empty")
  else
    match is_max_length "title" v 100 with
    | .error e => .error e
    | .ok _ => .ok v

/-- Place description setter: None or a string, by typing. -/
def place_set_description (v : Option String) : Except PyErr (Option String) :=
  .ok v

/-- Place price setter: accepts int or float, rejects negatives, stores
`float(value)`. -/
def place_set_price (v : PyNum) : Except PyErr Rat :=
  if pyNumNeg v then .error (.valueError "Price must be positive.")
  else .ok (pyFloatFn v)

/-- Place latitude setter: isinstance float (an int is rejected), then
the exclusive range check, then `float(value)` — identity on a float. -/
def place_set_latitude (v : PyNum) : Except PyErr Rat :=
  match v with
  | .pyFloat q =>
    match is_in_rangeQ "latitude" q (-90) 90 with
    | .error e => .error e
    | .ok _ => .ok q
  | .pyInt _ => .error (.typeError "Latitude must be a float")

/-- Place longitude setter: as latitude with bounds -180 and 180. -/
def place_set_longitude (v : PyNum) : Except PyErr Rat :=
  match v with
  | .pyFloat q =>
    match is_in_rangeQ "longitude" q (-180) 180 with
    | .error e => .error e
    | .ok _ => .ok q
  | .pyInt _ => .error (.typeError "Longitude must be a float")

/-- part3 `Place.__init__`: setters run in source order (title,
description, price, latitude, longitude, owner), then the relationship
containers start empty.  The owner isinstance check holds by typing. -/
def Place3.construct (title : String) (price latitude longitude : PyNum)
    (owner : User3) (description : Option String) : Except PyErr Place3 :=
  match place_set_title title with
  | .error e => .error e
  | .ok t =>
    match place_set_description description with
    | .error e => .error e
    | .ok d =>
      match place_set_price price with
      | .error e => .error e
      | .ok pr =>
        match place_set_latitude latitude with
        | .error e => .error e
        | .ok la =>
          match place_set_longitude longitude with
          | .error e => .error e
          | .ok lo => .ok ⟨t, d, pr, la, lo, owner, [], []⟩

/-- Reading `place.price` back: the stored value is a float. -/
def Place3.price_read (p : Place3) : PyNum := .pyFloat p.price

/-- Reading `place.latitude` back. -/
def Place3.latitude_read (p : Place3) : PyNum := .pyFloat p.latitude

/-- Reading `place.longitude` back. -/
def Place3.longitude_read (p : Place3) : PyNum := .pyFloat p.longitude

-- ---------------------------------------------------------------------
-- part3 BaseModel.update over a column-backed entity (claim C6).  A
-- mapped object is a dictionary of column attributes; `hasattr` is key
-- presence; `setattr` on a column assigns without validation; `save()`
-- refreshes `updated_at` to the current time, supplied as `now`.
-- ---------------------------------------------------------------------

structure DynEntity where
  attrs : List (String × PyVal)
  updated_at : Nat
  deriving DecidableEq, Repr

/-- `BaseModel.save`: refresh the updated_at timestamp. -/
def BaseModel.save (e : DynEntity) (now : Nat) : DynEntity :=
  { e with updated_at := now }

/-- `BaseModel.update(data)`: for each payload key in order, assign when
the attribute exists, skip otherwise; then `save()`. -/
def BaseModel.update (e : DynEntity) (data : List (String × PyVal))
    (now : Nat) : DynEntity :=
  BaseModel.save
    { e with
      attrs := (data.foldl
        (fun a kv => if dictHasKey a kv.1 then dictSet a kv.1 kv.2 else a)
        e.attrs) }
    now

/-- The part2 user-store invariant: every stored email is registered in
the class-level emails set, stored emails are pairwise distinct, and
stored ids are below the freshness counter. -/
def P2Inv (s : P2State) : Prop :=
  (∀ u ∈ s.user_repo.map Prod.snd, u.email ∈ s.emails) ∧
    ((s.user_repo.map (fun kv => kv.2.email)).Nodup) ∧
    (∀ k ∈ s.user_repo.map Prod.fst, k < s.nextId)

/-- The part3 user-store invariant: stored emails are pairwise distinct
and stored ids are below the freshness counter. -/
def P3Inv (s : P3State) : Prop :=
  ((s.user_repo.map (fun kv => kv.2.email)).Nodup) ∧
    (∀ k ∈ s.user_repo.map Prod.fst, k < s.nextId)

end HBnB

namespace HBnB

theorem dictGet_dictSet {κ α : Type} [DecidableEq κ]
    (d : List (κ × α)) (k k' : κ) (v : α) :
    dictGet (dictSet d k v) k' = if k' = k then some v else dictGet d k' := by
  induction d with
  | nil =>
    by_cases h : k' = k
    · subst h; simp [dictSet, dictGet]
    · simp [dictSet, dictGet, h, Ne.symm h]
  | cons hd tl ih =>
    obtain ⟨kh, vh⟩ := hd
    by_cases hk : kh = k
    · subst hk
      by_cases hk' : k' = kh
      · subst hk'; simp [dictSet, dictGet]
      · simp [dictSet, dictGet, hk', Ne.symm hk']
    · by_cases hk' : k' = kh
      · subst hk'
        simp [dictSet, dictGet, hk, Ne.symm hk]
      · simp [dictSet, dictGet, hk, Ne.symm hk', ih, hk']

theorem dictSet_of_get_none {κ α : Type} [DecidableEq κ]
    (d : List (κ × α)) (k : κ) (v : α) (h : dictGet d k = none) :
    dictSet d k v = d ++ [(k, v)] := by
  induction d with
  | nil => simp [dictSet]
  | cons hd tl ih =>
    obtain ⟨kh, vh⟩ := hd
    by_cases hk : kh = k
    · simp [dictGet, hk] at h
    · simp [dictGet, hk] at h
      simp [dictSet, hk, ih h]

theorem dictHasKey_iff_get {κ α : Type} [DecidableEq κ]
    (d : List (κ × α)) (k : κ) :
    dictHasKey d k = true ↔ ∃ v, dictGet d k = some v := by
  induction d with
  | nil => simp [dictHasKey, dictGet]
  | cons hd tl ih =>
    obtain ⟨kh, vh⟩ := hd
    by_cases hk : kh = k <;> simp [dictHasKey, dictGet, hk, ih]

theorem dictSet_keys_of_hasKey {κ α : Type} [DecidableEq κ]
    (d : List (κ × α)) (k : κ) (v : α) (h : dictHasKey d k = true) :
    (dictSet d k v).map Prod.fst = d.map Prod.fst := by
  induction d with
  | nil => simp [dictHasKey] at h
  | cons hd tl ih =>
    obtain ⟨kh, vh⟩ := hd
    by_cases hk : kh = k
    · simp [dictSet, hk]
    · simp [dictHasKey, hk] at h
      simp [dictSet, hk, ih h]

/-- C4: for every integer rating, the inclusive check 1 <= rating <= 5 of
the part3/hbnb revision and the exclusive check 0 < rating < 6 of the
part3/app revision accept exactly the same ratings, namely the integers
1, 2, 3, 4 and 5; every other integer is rejected with an error. -/
theorem rating_checks_agree (n : Int) :
    (validate_rating n = .ok () ↔ rating_setter_check n = .ok ()) ∧
      (validate_rating n = .ok () ↔ 1 ≤ n ∧ n ≤ 5) ∧
      (¬ (1 ≤ n ∧ n ≤ 5) →
        (∃ m, validate_rating n = .error (.valueError m)) ∧
          ∃ m, rating_setter_check n = .error (.valueError m)) := by
  unfold validate_rating rating_setter_check is_in_rangeI
  by_cases h : 1 ≤ n ∧ n ≤ 5
  · rw [if_neg, if_neg]
    · simp [h]
    · omega
    · omega
  · rw [if_pos, if_pos]
    · simp [h]
    · omega
    · omega

/-- C5 counterexample: adding an entity whose id collides with a stored
entity does not fail with any error; the in-memory store is changed, the
old entity being silently replaced by the new one. -/
theorem add_duplicate_counterexample :
    InMemoryRepository.add Entity.id [(1, Entity.mk 1 "old")]
        (Entity.mk 1 "new") = [(1, Entity.mk 1 "new")] ∧
      [(1, Entity.mk 1 "new")] ≠ [(1, Entity.mk 1 "old")] ∧
      InMemoryRepository.get [(1, Entity.mk 1 "new")] 1 =
        some (Entity.mk 1 "new") := by
  decide

/-- C5 amended: `InMemoryRepository.add` never fails; it always performs
the single dict assignment, so the entity is stored under its id, a
colliding entry is silently overwritten (the key set is unchanged in
that case), no unique-field check is performed, and entries under other
ids are untouched. -/
theorem add_never_raises_and_overwrites {α : Type} (idOf : α → Nat)
    (storage : List (Nat × α)) (obj : α) (k : Nat) (hk : k ≠ idOf obj) :
    InMemoryRepository.add idOf storage obj =
        dictSet storage (idOf obj) obj ∧
      InMemoryRepository.get (InMemoryRepository.add idOf storage obj)
        (idOf obj) = some obj ∧
      InMemoryRepository.get (InMemoryRepository.add idOf storage obj) k =
        InMemoryRepository.get storage k ∧
      (dictHasKey storage (idOf obj) = true →
        (InMemoryRepository.add idOf storage obj).map Prod.fst =
          storage.map Prod.fst) := by
  refine ⟨rfl, ?_, ?_, ?_⟩
  · unfold InMemoryRepository.get InMemoryRepository.add
    rw [dictGet_dictSet]
    simp
  · unfold InMemoryRepository.get InMemoryRepository.add
    rw [dictGet_dictSet]
    simp [hk]
  · intro h
    exact dictSet_keys_of_hasKey _ _ _ h

theorem dictHasKey_iff_mem {κ α : Type} [DecidableEq κ]
    (d : List (κ × α)) (k : κ) :
    dictHasKey d k = true ↔ k ∈ d.map Prod.fst := by
  induction d with
  | nil => simp [dictHasKey]
  | cons hd tl ih =>
    obtain ⟨kh, vh⟩ := hd
    by_cases h : kh = k
    · subst h; simp [dictHasKey]
    · simp [dictHasKey, h, Ne.symm h, ih]

theorem dictHasKey_congr {κ α β : Type} [DecidableEq κ]
    {d1 : List (κ × α)} {d2 : List (κ × β)}
    (h : d1.map Prod.fst = d2.map Prod.fst) (k : κ) :
    dictHasKey d1 k = dictHasKey d2 k := by
  have h1 := dictHasKey_iff_mem d1 k
  have h2 := dictHasKey_iff_mem d2 k
  rw [h] at h1
  cases hb1 : dictHasKey d1 k <;> cases hb2 : dictHasKey d2 k <;>
    simp_all

theorem dictGet_none_of_not_mem {κ α : Type} [DecidableEq κ]
    (d : List (κ × α)) (k : κ) (h : k ∉ d.map Prod.fst) :
    dictGet d k = none := by
  cases hg : dictGet d k with
  | none => rfl
  | some v =>
    have : dictHasKey d k = true := (dictHasKey_iff_get d k).mpr ⟨v, hg⟩
    exact absurd ((dictHasKey_iff_mem d k).mp this) h

/-- Inversion for the part2 string-field setter. -/
theorem user2_str_field_ok {name : String} {maxLen : Nat} {v : PyVal}
    {s : String} (h : user2_str_field name maxLen v = .ok s) :
    v = .vStr s ∧ s.length ≤ maxLen := by
  cases v with
  | vStr t =>
    unfold user2_str_field is_max_length at h
    by_cases hl : t.length > maxLen
    · simp [hl] at h
    · simp [hl] at h
      subst h
      exact ⟨rfl, by omega⟩
  | vInt n => simp [user2_str_field] at h
  | vBool b => simp [user2_str_field] at h
  | vNone => simp [user2_str_field] at h

/-- Witness for the C5 amended theorem at a concrete store. -/
theorem add_never_raises_and_overwrites_witness :
    InMemoryRepository.get
        (InMemoryRepository.add Entity.id [(1, Entity.mk 1 "old")]
          (Entity.mk 1 "new")) 1 = some (Entity.mk 1 "new") ∧
      InMemoryRepository.get
        (InMemoryRepository.add Entity.id [(1, Entity.mk 1 "old")]
          (Entity.mk 1 "new")) 2 = InMemoryRepository.get
            [(1, Entity.mk 1 "old")] 2 := by
  have h := add_never_raises_and_overwrites Entity.id
    [(1, Entity.mk 1 "old")] (Entity.mk 1 "new") 2 (by decide)
  exact ⟨h.2.1, h.2.2.1⟩


/-- C7 counterexample: constructing a part2 User with valid names, a
fresh valid email, and a non-boolean is_admin flag raises; the
repository stays empty, but the class-level User.emails set is no
longer empty — it retains the email of the failed construction. -/
theorem create_user_failed_leak_counterexample :
    (HBnBFacade.create_user ⟨[], [], 0⟩ (.vStr "A") (.vStr "B")
        (.vStr "a@b.c") (.vStr "yes")).fst =
      .error (.typeError "Is Admin must be a boolean") ∧
    (HBnBFacade.create_user ⟨[], [], 0⟩ (.vStr "A") (.vStr "B")
        (.vStr "a@b.c") (.vStr "yes")).snd.user_repo = [] ∧
    (HBnBFacade.create_user ⟨[], [], 0⟩ (.vStr "A") (.vStr "B")
        (.vStr "a@b.c") (.vStr "yes")).snd.emails = ["a@b.c"] ∧
    (HBnBFacade.create_user ⟨[], [], 0⟩ (.vStr "A") (.vStr "B")
        (.vStr "a@b.c") (.vStr "yes")).snd.emails ≠ [] := by
  decide

/-- C7 amended: when part2 User construction fails on a non-boolean
is_admin flag after the earlier setters succeeded, create_user raises a
TypeError and adds nothing to the repository, but the class-level
User.emails set retains the email validated during the failed
construction. -/
theorem create_user_failed_leaks (s : P2State) (first last adm : PyVal)
    (e : String)
    (hf : ∃ v, user2_str_field "First name" 50 first = .ok v)
    (hl : ∃ v, user2_str_field "Last name" 50 last = .ok v)
    (hm : emailMatch e = true) (hmem : e ∉ s.emails)
    (hadm : ∀ b, adm ≠ PyVal.vBool b) :
    (HBnBFacade.create_user s first last (.vStr e) adm).fst =
        .error (.typeError "Is Admin must be a boolean") ∧
      (HBnBFacade.create_user s first last (.vStr e) adm).snd.user_repo =
        s.user_repo ∧
      (HBnBFacade.create_user s first last (.vStr e) adm).snd.emails =
        s.emails ++ [e] := by
  obtain ⟨fn, hfn⟩ := hf
  obtain ⟨ln, hln⟩ := hl
  have hinit : user2_email_init s.emails (.vStr e) =
      .ok (e, s.emails ++ [e]) := by
    unfold user2_email_init emailsAdd
    simp [hm, hmem]
  have hadm2 : user2_is_admin_set adm =
      .error (.typeError "Is Admin must be a boolean") := by
    cases adm with
    | vBool b => exact absurd rfl (hadm b)
    | vStr t => rfl
    | vInt n => rfl
    | vNone => rfl
  unfold HBnBFacade.create_user User2.construct
  rw [hfn, hln, hinit, hadm2]
  exact ⟨rfl, rfl, rfl⟩

/-- Witness for the C7 amended theorem at a concrete state. -/
theorem create_user_failed_leaks_witness :
    (HBnBFacade.create_user ⟨["x@y.z"], [], 4⟩ (.vStr "Ann") (.vStr "Lee")
        (.vStr "new@mail.fr") (.vInt 1)).snd.emails =
      ["x@y.z", "new@mail.fr"] ∧
    (HBnBFacade.create_user ⟨["x@y.z"], [], 4⟩ (.vStr "Ann") (.vStr "Lee")
        (.vStr "new@mail.fr") (.vInt 1)).snd.user_repo = [] := by
  have h := create_user_failed_leaks ⟨["x@y.z"], [], 4⟩ (.vStr "Ann")
    (.vStr "Lee") (.vInt 1) "new@mail.fr" ⟨"Ann", by decide⟩
    ⟨"Lee", by decide⟩ (by decide) (by decide) (by decide)
  exact ⟨h.2.2, h.2.1⟩

/-- Inversion for the Place title setter. -/
theorem place_set_title_ok {v t : String}
    (h : place_set_title v = .ok t) : t = v := by
  unfold place_set_title is_max_length at h
  by_cases hv : v = ""
  · simp [hv] at h
  · rw [if_neg hv] at h
    by_cases hl : v.length > 100
    · simp [hl] at h
    · simp [hl] at h
      exact h.symm

/-- Inversion for the Place price setter: the stored value is the float
conversion of the input. -/
theorem place_set_price_ok {v : PyNum} {pr : Rat}
    (h : place_set_price v = .ok pr) : pr = pyFloatFn v := by
  unfold place_set_price at h
  by_cases hn : pyNumNeg v = true
  · simp [hn] at h
  · simp [hn] at h
    exact h.symm

/-- Inversion for the Place latitude setter: only a float is accepted
and it is stored unchanged. -/
theorem place_set_latitude_ok {v : PyNum} {q : Rat}
    (h : place_set_latitude v = .ok q) : v = .pyFloat q := by
  cases v with
  | pyInt n => simp [place_set_latitude] at h
  | pyFloat x =>
    simp only [place_set_latitude] at h
    cases hr : is_in_rangeQ "latitude" x (-90) 90 with
    | error e => rw [hr] at h; exact absurd h (by simp)
    | ok u => rw [hr] at h; injection h with h; rw [h]

/-- Inversion for the Place longitude setter. -/
theorem place_set_longitude_ok {v : PyNum} {q : Rat}
    (h : place_set_longitude v = .ok q) : v = .pyFloat q := by
  cases v with
  | pyInt n => simp [place_set_longitude] at h
  | pyFloat x =>
    simp only [place_set_longitude] at h
    cases hr : is_in_rangeQ "longitude" x (-180) 180 with
    | error e => rw [hr] at h; exact absurd h (by simp)
    | ok u => rw [hr] at h; injection h with h; rw [h]

/-- C8 counterexample: a Place accepts an integer price, but reading the
price back returns the float conversion, not the integer value that was
passed in — the round trip fails on Place.price. -/
theorem place_price_round_trip_counterexample :
    Place3.construct "t" (.pyInt 5) (.pyFloat 10) (.pyFloat 20)
        ⟨1, "A", "B", "a@b.c", "h", false⟩ none =
      .ok ⟨"t", none, 5, 10, 20, ⟨1, "A", "B", "a@b.c", "h", false⟩,
        [], []⟩ ∧
    Place3.price_read
        ⟨"t", none, 5, 10, 20, ⟨1, "A", "B", "a@b.c", "h", false⟩,
          [], []⟩ = .pyFloat 5 ∧
    Place3.price_read
        ⟨"t", none, 5, 10, 20, ⟨1, "A", "B", "a@b.c", "h", false⟩,
          [], []⟩ ≠ .pyInt 5 := by
  decide

/-- C8 amended: for every accepted field combination, title,
description, latitude, longitude and owner read back exactly as passed
in; the price reads back as the float conversion of the input, which
equals the input whenever the price was passed as a float (an integer
price reads back as the equal-valued float instead). -/
theorem place_construct_round_trip (title : String)
    (price latitude longitude : PyNum) (owner : User3)
    (description : Option String) (p : Place3)
    (h : Place3.construct title price latitude longitude owner
        description = .ok p) :
    p.title = title ∧ p.description = description ∧
      Place3.latitude_read p = latitude ∧
      Place3.longitude_read p = longitude ∧
      p.owner = owner ∧
      Place3.price_read p = .pyFloat (pyFloatFn price) ∧
      ∀ q, price = .pyFloat q → Place3.price_read p = price := by
  unfold Place3.construct at h
  cases h1 : place_set_title title with
  | error e => rw [h1] at h; exact absurd h (by simp)
  | ok t =>
  rw [h1] at h
  rw [show place_set_description description = .ok description from rfl]
    at h
  cases h3 : place_set_price price with
  | error e => rw [h3] at h; exact absurd h (by simp)
  | ok pr =>
  rw [h3] at h
  cases h4 : place_set_latitude latitude with
  | error e => rw [h4] at h; exact absurd h (by simp)
  | ok la =>
  rw [h4] at h
  cases h5 : place_set_longitude longitude with
  | error e => rw [h5] at h; exact absurd h (by simp)
  | ok lo =>
  rw [h5] at h
  injection h with h
  subst h
  refine ⟨place_set_title_ok h1, rfl, ?_, ?_, rfl, ?_, ?_⟩
  · exact (place_set_latitude_ok h4).symm
  · exact (place_set_longitude_ok h5).symm
  · rw [Place3.price_read, place_set_price_ok h3]
  · intro q hq
    rw [Place3.price_read, place_set_price_ok h3, hq]
    rfl

/-- Witness for the C8 amended theorem at a concrete valid Place. -/
theorem place_construct_round_trip_witness :
    Place3.latitude_read
        ⟨"loft", some "d", 3, 45, 5, ⟨1, "A", "B", "a@b.c", "h", false⟩,
          [], []⟩ = .pyFloat 45 ∧
    Place3.price_read
        ⟨"loft", some "d", 3, 45, 5, ⟨1, "A", "B", "a@b.c", "h", false⟩,
          [], []⟩ = .pyFloat 3 := by
  have h := place_construct_round_trip "loft" (.pyFloat 3) (.pyFloat 45)
    (.pyFloat 5) ⟨1, "A", "B", "a@b.c", "h", false⟩ (some "d")
    ⟨"loft", some "d", 3, 45, 5, ⟨1, "A", "B", "a@b.c", "h", false⟩,
      [], []⟩ (by decide)
  exact ⟨h.2.2.1, h.2.2.2.2.2.2 3 rfl ▸ h.2.2.2.2.2.1⟩

/-- C10: every part2 facade update method passes a single argument to
the two-parameter repository update, so for every stored entity the
call raises before the repository update body can run: the generic
facade-update shape never returns successfully, and when the setattr
loop itself raised no error the outcome is exactly the missing-argument
TypeError with the entity mutations already visible through the store;
the concrete update_user behaves the same way. -/
theorem p2_facade_update_never_succeeds {α : Type}
    (merge : α → List (String × PyVal) → α × Option PyErr)
    (storage : List (Nat × α)) (oid : Nat) (data : List (String × PyVal))
    (obj : α) (hs : dictGet storage oid = some obj)
    (s : P2State) (uid : Nat) (d2 : List (String × PyVal)) (u : User2)
    (hu : dictGet s.user_repo uid = some u) :
    (∃ err, (p2_facade_update merge storage oid data).fst = .error err) ∧
      ((merge obj data).2 = none →
        p2_facade_update merge storage oid data =
          (.error (.typeError
            "update() missing 1 required positional argument: data"),
           dictSet storage oid (merge obj data).1)) ∧
      (∃ err, (HBnBFacade.update_user s uid d2).fst = .error err) ∧
      ((user2_merge s.emails u d2).2.2 = none →
        HBnBFacade.update_user s uid d2 =
          (.error (.typeError
            "update() missing 1 required positional argument: data"),
           { emails := (user2_merge s.emails u d2).2.1,
             user_repo := dictSet s.user_repo uid
               (user2_merge s.emails u d2).1,
             nextId := s.nextId })) := by
  refine ⟨?_, ?_, ?_, ?_⟩
  · unfold p2_facade_update
    rw [hs]
    cases hm : (merge obj data).2 with
    | some e => exact ⟨e, by simp [hm, repo_update_call]⟩
    | none =>
      exact ⟨.typeError
        "update() missing 1 required positional argument: data",
        by simp [hm, repo_update_call]⟩
  · intro hm
    unfold p2_facade_update
    rw [hs]
    simp [hm, repo_update_call]
  · unfold HBnBFacade.update_user
    rw [hu]
    cases hm : (user2_merge s.emails u d2).2.2 with
    | some e => exact ⟨e, by simp [hm, repo_update_call]⟩
    | none =>
      exact ⟨.typeError
        "update() missing 1 required positional argument: data",
        by simp [hm, repo_update_call]⟩
  · intro hm
    unfold HBnBFacade.update_user
    rw [hu]
    simp [hm, repo_update_call]

/-- Witness for the C10 theorem at a concrete stored user. -/
theorem p2_facade_update_never_succeeds_witness :
    (HBnBFacade.update_user
        ⟨["a@b.c"], [(0, ⟨0, "A", "B", "a@b.c", false, []⟩)], 1⟩ 0
        [("first_name", .vStr "Z")]).fst =
      .error (.typeError
        "update() missing 1 required positional argument: data") ∧
    (p2_facade_update (fun (n : Nat) _ => (n + 1, none)) [(3, 7)] 3
        []).fst =
      .error (.typeError
        "update() missing 1 required positional argument: data") := by
  have h := p2_facade_update_never_succeeds
    (fun (n : Nat) _ => (n + 1, none)) [(3, 7)] 3 [] 7 (by decide)
    ⟨["a@b.c"], [(0, ⟨0, "A", "B", "a@b.c", false, []⟩)], 1⟩ 0
    [("first_name", .vStr "Z")] ⟨0, "A", "B", "a@b.c", false, []⟩
    (by decide)
  constructor
  · rw [h.2.2.2 (by decide)]
  · rw [h.2.1 rfl]



/-- The attribute dictionary after the BaseModel.update loop: a key is
reassigned exactly when it already exists on the entity and occurs in
the payload; every other attribute keeps its value. -/
theorem update_foldl_get (data : List (String × PyVal))
    (attrs : List (String × PyVal)) (key : String)
    (hnd : (data.map Prod.fst).Nodup) :
    dictGet (data.foldl
        (fun a kv => if dictHasKey a kv.1 then dictSet a kv.1 kv.2 else a)
        attrs) key =
      if dictHasKey attrs key && dictHasKey data key then dictGet data key
      else dictGet attrs key := by
  induction data generalizing attrs with
  | nil => simp [dictHasKey]
  | cons hd tl ih =>
    obtain ⟨k, v⟩ := hd
    simp only [List.map_cons, List.nodup_cons] at hnd
    obtain ⟨hknotin, hnd2⟩ := hnd
    simp only [List.foldl_cons]
    by_cases hk : dictHasKey attrs k = true
    · rw [if_pos hk, ih _ hnd2]
      have hkeys := dictSet_keys_of_hasKey attrs k v hk
      have hhk := dictHasKey_congr hkeys key
      by_cases hkey : key = k
      · subst hkey
        have htl : dictHasKey tl key = false := by
          cases hb : dictHasKey tl key
          · rfl
          · exact absurd ((dictHasKey_iff_mem tl key).mp hb) hknotin
        rw [hhk, htl]
        rw [dictGet_dictSet]
        simp [dictHasKey, dictGet, hk]
      · have h1 : dictGet (dictSet attrs k v) key = dictGet attrs key := by
          rw [dictGet_dictSet]
          simp [hkey]
        have h2 : dictHasKey ((k, v) :: tl) key = dictHasKey tl key := by
          simp [dictHasKey, Ne.symm hkey]
        have h3 : dictGet ((k, v) :: tl) key = dictGet tl key := by
          simp [dictGet, Ne.symm hkey]
        rw [hhk, h1, h2, h3]
    · rw [if_neg hk, ih _ hnd2]
      by_cases hkey : key = k
      · subst hkey
        have hkf : dictHasKey attrs key = false := by
          cases hb : dictHasKey attrs key
          · rfl
          · exact absurd hb hk
        rw [hkf]
        simp
      · have h2 : dictHasKey ((k, v) :: tl) key = dictHasKey tl key := by
          simp [dictHasKey, Ne.symm hkey]
        have h3 : dictGet ((k, v) :: tl) key = dictGet tl key := by
          simp [dictGet, Ne.symm hkey]
        rw [h2, h3]

/-- C6 counterexample: updating a stored part3 user with an email value
that the construction-time validation rejects succeeds and stores the
invalid value — the update path re-validates nothing on column-backed
fields. -/
theorem update_no_revalidation_counterexample :
    InMemoryRepository.update (fun o d => BaseModel.update o d 7)
        [(1, ⟨[("email", .vStr "a@b.c"), ("first_name", .vStr "A")], 0⟩)] 1
        [("email", .vStr "not-an-email")] =
      [(1, ⟨[("email", .vStr "not-an-email"),
             ("first_name", .vStr "A")], 7⟩)] ∧
    validate_email3 "not-an-email" =
      .error (.valueError "Invalid email format") := by
  decide

/-- C6 amended: update(id, partial_fields) assigns exactly the named
fields that already exist on the entity, refreshes updated_at, and
leaves every other field unchanged; when no entity has the given id the
store is untouched.  No re-validation of the assigned values occurs on
column-backed entities. -/
theorem base_model_update_partial (e : DynEntity)
    (data : List (String × PyVal)) (now : Nat) (key : String)
    (storage : List (Nat × DynEntity)) (oid : Nat)
    (hnd : (data.map Prod.fst).Nodup) :
    ((BaseModel.update e data now).updated_at = now) ∧
      (dictGet (BaseModel.update e data now).attrs key =
        if dictHasKey e.attrs key && dictHasKey data key then
          dictGet data key
        else dictGet e.attrs key) ∧
      (dictGet storage oid = none →
        InMemoryRepository.update (fun o d => BaseModel.update o d now)
          storage oid data = storage) := by
  refine ⟨rfl, ?_, ?_⟩
  · exact update_foldl_get data e.attrs key hnd
  · intro h
    unfold InMemoryRepository.update
    rw [h]

/-- Witness for the C6 amended theorem at a concrete entity. -/
theorem base_model_update_partial_witness :
    (BaseModel.update ⟨[("email", .vStr "a@b.c")], 0⟩
        [("email", .vStr "x@y.z"), ("nope", .vInt 3)] 9).updated_at = 9 ∧
    dictGet (BaseModel.update ⟨[("email", .vStr "a@b.c")], 0⟩
        [("email", .vStr "x@y.z"), ("nope", .vInt 3)] 9).attrs "email" =
      some (.vStr "x@y.z") := by
  have h := base_model_update_partial ⟨[("email", .vStr "a@b.c")], 0⟩
    [("email", .vStr "x@y.z"), ("nope", .vInt 3)] 9 "email" [] 0
    (by decide)
  refine ⟨h.1, ?_⟩
  rw [h.2.1]
  decide



/-- Point lookup after the modelled facade update: the target user is
stored with the payload merged in. -/
theorem p3_update_user_get (s : P3State) (uid : Nat) (p : UserPayload)
    (u : User3) (hu : dictGet s.user_repo uid = some u) :
    dictGet (p3_update_user s uid p).user_repo uid =
      some (user3_apply_payload u p) := by
  unfold p3_update_user
  rw [hu]
  simp [dictGet_dictSet]

/-- C2: with the target user stored, (i) a non-admin caller updating its
own record with a payload carrying the email or password key gets 400
and the state is unchanged; (ii) a non-admin caller targeting another id
gets 403, state unchanged; (iii) an admin sending an email owned by a
different stored user gets 400, state unchanged; (iv) an admin sending
an email not owned by a different user gets 200 and the stored email of
the target becomes the payload email. -/
theorem user_put_cases (s : P3State) (caller target : Nat) (e : String)
    (p : UserPayload) (u : User3)
    (hu : dictGet s.user_repo target = some u) :
    (caller = target → (p.email ≠ none ∨ p.password ≠ none) →
      userResourcePut s caller false target p = (.resp 400, s)) ∧
      (caller ≠ target →
        userResourcePut s caller false target p = (.resp 403, s)) ∧
      (p.email = some e →
        (∃ ex, p3_get_user_by_email s e = some ex ∧ ex.id ≠ target) →
        userResourcePut s caller true target p = (.resp 400, s)) ∧
      (p.email = some e →
        (∀ ex, p3_get_user_by_email s e = some ex → ex.id = target) →
        (userResourcePut s caller true target p).fst = .resp 200 ∧
          (dictGet (userResourcePut s caller true target p).snd.user_repo
            target).map User3.email = some e) := by
  refine ⟨?_, ?_, ?_, ?_⟩
  · intro hct hep
    have hsome : (p.email.isSome || p.password.isSome) = true := by
      rcases hep with he | hp
      · simp [Option.isSome_iff_ne_none.mpr he]
      · simp [Option.isSome_iff_ne_none.mpr hp]
    unfold userResourcePut
    rw [hu]
    simp [hct, hsome]
  · intro hct
    unfold userResourcePut
    rw [hu]
    simp [hct]
  · intro hpe hex
    obtain ⟨ex, hexeq, hexid⟩ := hex
    unfold userResourcePut
    rw [hu, hpe]
    simp [hexeq, hexid]
  · intro hpe hall
    have hg := p3_update_user_get s target p u hu
    unfold userResourcePut
    rw [hu, hpe]
    cases hex : p3_get_user_by_email s e with
    | some ex =>
      have hid : ex.id = target := hall ex hex
      constructor
      · simp [hex, hid]
      · simp [hex, hid, hg, user3_apply_payload, hpe]
    | none =>
      constructor
      · simp [hex]
      · simp [hex, hg, user3_apply_payload, hpe]

/-- Witness for the C2 theorem at a concrete two-user store. -/
theorem user_put_cases_witness :
    (userResourcePut
        ⟨[(1, ⟨1, "A", "B", "a@b.c", "h", false⟩),
          (2, ⟨2, "C", "D", "c@d.e", "h", false⟩)], 3⟩
        1 false 1 ⟨some "X", none, some "e@f.g", none, none⟩) =
      (.resp 400,
        ⟨[(1, ⟨1, "A", "B", "a@b.c", "h", false⟩),
          (2, ⟨2, "C", "D", "c@d.e", "h", false⟩)], 3⟩) ∧
    (userResourcePut
        ⟨[(1, ⟨1, "A", "B", "a@b.c", "h", false⟩),
          (2, ⟨2, "C", "D", "c@d.e", "h", false⟩)], 3⟩
        1 false 2 ⟨some "X", none, none, none, none⟩) =
      (.resp 403,
        ⟨[(1, ⟨1, "A", "B", "a@b.c", "h", false⟩),
          (2, ⟨2, "C", "D", "c@d.e", "h", false⟩)], 3⟩) ∧
    (userResourcePut
        ⟨[(1, ⟨1, "A", "B", "a@b.c", "h", false⟩),
          (2, ⟨2, "C", "D", "c@d.e", "h", false⟩)], 3⟩
        9 true 1 ⟨none, none, some "c@d.e", none, none⟩) =
      (.resp 400,
        ⟨[(1, ⟨1, "A", "B", "a@b.c", "h", false⟩),
          (2, ⟨2, "C", "D", "c@d.e", "h", false⟩)], 3⟩) ∧
    (dictGet (userResourcePut
        ⟨[(1, ⟨1, "A", "B", "a@b.c", "h", false⟩),
          (2, ⟨2, "C", "D", "c@d.e", "h", false⟩)], 3⟩
        9 true 1 ⟨none, none, some "n@w.z", none, none⟩).snd.user_repo
      1).map User3.email = some "n@w.z" := by
  have h1 := user_put_cases
    ⟨[(1, ⟨1, "A", "B", "a@b.c", "h", false⟩),
      (2, ⟨2, "C", "D", "c@d.e", "h", false⟩)], 3⟩
    1 1 "e@f.g" ⟨some "X", none, some "e@f.g", none, none⟩
    ⟨1, "A", "B", "a@b.c", "h", false⟩ (by decide)
  have h2 := user_put_cases
    ⟨[(1, ⟨1, "A", "B", "a@b.c", "h", false⟩),
      (2, ⟨2, "C", "D", "c@d.e", "h", false⟩)], 3⟩
    1 2 "x@y.z" ⟨some "X", none, none, none, none⟩
    ⟨2, "C", "D", "c@d.e", "h", false⟩ (by decide)
  have h3 := user_put_cases
    ⟨[(1, ⟨1, "A", "B", "a@b.c", "h", false⟩),
      (2, ⟨2, "C", "D", "c@d.e", "h", false⟩)], 3⟩
    9 1 "c@d.e" ⟨none, none, some "c@d.e", none, none⟩
    ⟨1, "A", "B", "a@b.c", "h", false⟩ (by decide)
  have h4 := user_put_cases
    ⟨[(1, ⟨1, "A", "B", "a@b.c", "h", false⟩),
      (2, ⟨2, "C", "D", "c@d.e", "h", false⟩)], 3⟩
    9 1 "n@w.z" ⟨none, none, some "n@w.z", none, none⟩
    ⟨1, "A", "B", "a@b.c", "h", false⟩ (by decide)
  refine ⟨?_, ?_, ?_, ?_⟩
  · exact h1.1 rfl (Or.inl (by decide))
  · exact h2.2.1 (by decide)
  · exact h3.2.2.1 rfl ⟨⟨2, "C", "D", "c@d.e", "h", false⟩, by decide,
      by decide⟩
  · exact (h4.2.2.2 rfl (by decide)).2



/-- Inversion for the part2 fresh-email setter. -/
theorem user2_email_init_ok {emails : List String} {e s : String}
    {em2 : List String}
    (h : user2_email_init emails (.vStr e) = .ok (s, em2)) :
    s = e ∧ e ∉ emails ∧ em2 = emails ++ [e] := by
  unfold user2_email_init emailsAdd at h
  by_cases hm : emailMatch e = true
  · by_cases hmem : e ∈ emails
    · simp [hm, hmem] at h
    · simp [hm, hmem] at h
      exact ⟨h.1.symm, hmem, h.2.symm⟩
  · simp [hm] at h

/-- The emails set never shrinks across a part2 construction attempt. -/
theorem user2_construct_emails_mono (emails : List String) (uid : Nat)
    (f l em ad : PyVal) (x : String) (hx : x ∈ emails) :
    x ∈ (User2.construct emails uid f l em ad).2 := by
  unfold User2.construct
  cases user2_str_field "First name" 50 f with
  | error e1 => exact hx
  | ok fn =>
    cases user2_str_field "Last name" 50 l with
    | error e1 => exact hx
    | ok ln =>
      cases hi : user2_email_init emails em with
      | error e1 => exact hx
      | ok pair =>
        obtain ⟨s, em2⟩ := pair
        have hsub : ∀ y ∈ emails, y ∈ em2 := by
          cases em with
          | vStr t =>
            obtain ⟨-, -, h3⟩ := user2_email_init_ok hi
            intro y hy
            rw [h3]
            exact List.mem_append_left _ hy
          | vInt n => simp [user2_email_init] at hi
          | vBool b => simp [user2_email_init] at hi
          | vNone => simp [user2_email_init] at hi
        cases user2_is_admin_set ad with
        | error e1 => exact hsub x hx
        | ok b => exact hsub x hx

/-- Inversion of a successful part2 User construction with a string
email: the email was fresh, is stored on the user, and was appended to
the class set; the id is the supplied fresh id. -/
theorem user2_construct_ok_inv {emails : List String} {uid : Nat}
    {f l ad : PyVal} {e : String} {u : User2} {em2 : List String}
    (h : User2.construct emails uid f l (.vStr e) ad = (.ok u, em2)) :
    u.id = uid ∧ u.email = e ∧ e ∉ emails ∧ em2 = emails ++ [e] := by
  unfold User2.construct at h
  cases hf : user2_str_field "First name" 50 f with
  | error e1 =>
    rw [hf] at h
    have h2 : ((Except.error e1 : Except PyErr User2), emails) =
        (Except.ok u, em2) := h
    injection h2 with h3 h4
    exact Except.noConfusion h3
  | ok fn =>
    rw [hf] at h
    cases hl : user2_str_field "Last name" 50 l with
    | error e1 =>
      rw [hl] at h
      have h2 : ((Except.error e1 : Except PyErr User2), emails) =
          (Except.ok u, em2) := h
      injection h2 with h3 h4
      exact Except.noConfusion h3
    | ok ln =>
      rw [hl] at h
      cases hi : user2_email_init emails (.vStr e) with
      | error e1 =>
        rw [hi] at h
        have h2 : ((Except.error e1 : Except PyErr User2), emails) =
            (Except.ok u, em2) := h
        injection h2 with h3 h4
        exact Except.noConfusion h3
      | ok pair =>
        obtain ⟨s, em3⟩ := pair
        obtain ⟨hs, hmem, hem⟩ := user2_email_init_ok hi
        rw [hi] at h
        cases ha : user2_is_admin_set ad with
        | error e1 =>
          rw [ha] at h
          have h2 : ((Except.error e1 : Except PyErr User2), em3) =
              (Except.ok u, em2) := h
          injection h2 with h3 h4
          exact Except.noConfusion h3
        | ok b =>
          rw [ha] at h
          have h2 : ((Except.ok (⟨uid, fn, ln, s, b, []⟩ : User2) :
              Except PyErr User2), em3) = (Except.ok u, em2) := h
          injection h2 with h3 h4
          injection h3 with h3
          subst hs hem h4
          rw [← h3]
          exact ⟨rfl, rfl, hmem, rfl⟩

/-- Inversion of a successful part3 User construction. -/
theorem user3_construct_ok {uid : Nat} {f l em pw : String} {ad : Bool}
    {u : User3} (h : User3.construct uid f l em pw ad = .ok u) :
    u = ⟨uid, f, l, em, bcrypt_hash pw, ad⟩ := by
  unfold User3.construct at h
  cases hf : validate_first_name f with
  | error e1 =>
    rw [hf] at h
    have h2 : (Except.error e1 : Except PyErr User3) = .ok u := h
    exact Except.noConfusion h2
  | ok a =>
    rw [hf] at h
    cases hl : validate_last_name l with
    | error e1 =>
      rw [hl] at h
      have h2 : (Except.error e1 : Except PyErr User3) = .ok u := h
      exact Except.noConfusion h2
    | ok b =>
      rw [hl] at h
      cases he : validate_email3 em with
      | error e1 =>
        rw [he] at h
        have h2 : (Except.error e1 : Except PyErr User3) = .ok u := h
        exact Except.noConfusion h2
      | ok c =>
        rw [he] at h
        have h2 : (Except.ok (⟨uid, f, l, em, bcrypt_hash pw, ad⟩ :
            User3) : Except PyErr User3) = .ok u := h
        injection h2 with h3
        exact h3.symm

/-- C3 counterexample: after a failed part2 construction has leaked an
email into the class-level set, the facade repository holds no user
with that email (get_user_by_email finds nothing), yet creating a user
with that email is rejected — so the uniqueness decision is not a
facade-layer check against the stored users; it lives in the model
class state (part2) and in the API handler pre-check (part3). -/
theorem facade_uniqueness_counterexample :
    (HBnBFacade.create_user ⟨[], [], 0⟩ (.vStr "A") (.vStr "B")
        (.vStr "a@b.c") (.vStr "yes")).snd = ⟨["a@b.c"], [], 1⟩ ∧
    HBnBFacade.get_user_by_email ⟨["a@b.c"], [], 1⟩ "a@b.c" = none ∧
    (HBnBFacade.create_user ⟨["a@b.c"], [], 1⟩ (.vStr "C") (.vStr "D")
        (.vStr "a@b.c") (.vBool false)).fst =
      .error (.valueError "Email already exists") ∧
    (HBnBFacade.create_user ⟨["a@b.c"], [], 1⟩ (.vStr "C") (.vStr "D")
        (.vStr "a@b.c") (.vBool false)).snd.user_repo = [] := by
  decide

/-- C3 amended: creating a User with an already-registered email always
fails and stores nothing, whatever the other fields are, and no two
stored users ever share an email; but the uniqueness check is not in
the facade layer: part2 enforces it in the User model through the
class-level emails set (which can also reject an email held by no
stored user), and part3 enforces it in the POST /users/ handler
pre-check. -/
theorem user_email_uniqueness (s2 : P2State) (first last adm : PyVal)
    (e : String) (s3 : P3State) (f3 l3 pw : String) (adm3 : Bool) :
    (P2Inv s2 → (∃ u ∈ s2.user_repo.map Prod.snd, u.email = e) →
      (∃ err, (HBnBFacade.create_user s2 first last (.vStr e) adm).fst =
        .error err) ∧
        (HBnBFacade.create_user s2 first last (.vStr e) adm).snd.user_repo
          = s2.user_repo ∧
        (HBnBFacade.create_user s2 first last (.vStr e) adm).snd.emails
          = s2.emails) ∧
      (P2Inv s2 →
        P2Inv (HBnBFacade.create_user s2 first last (.vStr e) adm).snd) ∧
      ((∃ ex, p3_get_user_by_email s3 e = some ex) →
        userListPost s3 true f3 l3 e pw adm3 = (.resp 400, s3)) ∧
      (∀ a : Bool, P3Inv s3 →
        P3Inv (userListPost s3 a f3 l3 e pw adm3).snd) := by
  refine ⟨?_, ?_, ?_, ?_⟩
  · intro hinv hdup
    obtain ⟨u, hu, hue⟩ := hdup
    have hmem : e ∈ s2.emails := hue ▸ hinv.1 u hu
    unfold HBnBFacade.create_user User2.construct
    cases user2_str_field "First name" 50 first with
    | error e1 => exact ⟨⟨e1, rfl⟩, rfl, rfl⟩
    | ok fn =>
      cases user2_str_field "Last name" 50 last with
      | error e1 => exact ⟨⟨e1, rfl⟩, rfl, rfl⟩
      | ok ln =>
        cases hval : user2_email_init s2.emails (.vStr e) with
        | error err => exact ⟨⟨err, rfl⟩, rfl, rfl⟩
        | ok pair =>
          obtain ⟨s, em3⟩ := pair
          obtain ⟨-, hnotmem, -⟩ := user2_email_init_ok hval
          exact absurd hmem hnotmem
  · intro hinv
    obtain ⟨hsub, hnd, hfresh⟩ := hinv
    cases hc : User2.construct s2.emails s2.nextId first last
        (.vStr e) adm with
    | mk r em2 =>
      cases r with
      | error err =>
        have hred : HBnBFacade.create_user s2 first last (.vStr e) adm =
            (.error err,
             { s2 with emails := em2, nextId := s2.nextId + 1 }) := by
          unfold HBnBFacade.create_user
          rw [hc]
        rw [hred]
        dsimp only
        refine ⟨?_, hnd, ?_⟩
        · intro u hu
          have := hsub u hu
          have hm := user2_construct_emails_mono s2.emails s2.nextId
            first last (.vStr e) adm u.email this
          rw [hc] at hm
          exact hm
        · intro k hk
          have := hfresh k hk
          show k < s2.nextId + 1
          omega
      | ok u =>
        have hred : HBnBFacade.create_user s2 first last (.vStr e) adm =
            (.ok u,
             { emails := em2,
               user_repo := InMemoryRepository.add User2.id
                 s2.user_repo u,
               nextId := s2.nextId + 1 }) := by
          unfold HBnBFacade.create_user
          rw [hc]
        rw [hred]
        dsimp only
        obtain ⟨hid, hue, hfreshe, hem⟩ := user2_construct_ok_inv hc
        have hnone : dictGet s2.user_repo u.id = none := by
          apply dictGet_none_of_not_mem
          intro hmemk
          have := hfresh u.id hmemk
          omega
        have happ : InMemoryRepository.add User2.id s2.user_repo u =
            s2.user_repo ++ [(u.id, u)] := by
          unfold InMemoryRepository.add
          exact dictSet_of_get_none _ _ _ hnone
        refine ⟨?_, ?_, ?_⟩
        · intro v hv
          simp only [happ, List.map_append, List.mem_append] at hv
          rcases hv with hv | hv
          · rw [hem]
            exact List.mem_append_left _ (hsub v hv)
          · simp at hv
            rw [hv, hem, hue]
            simp
        · simp only [happ, List.map_append]
          rw [List.nodup_append]
          refine ⟨hnd, by simp, ?_⟩
          intro x hx
          simp only [List.map_cons, List.map_nil, List.mem_singleton]
          intro hx2
          rw [hx2, hue] at hx
          have : e ∈ s2.emails := by
            obtain ⟨kv, hkv, hkve⟩ := List.mem_map.mp hx
            exact hkve ▸ hsub kv.2 (List.mem_map_of_mem Prod.snd hkv)
          exact hfreshe this
        · intro k hk
          simp only [happ, List.map_append, List.mem_append] at hk
          rcases hk with hk | hk
          · have := hfresh k hk
            show k < s2.nextId + 1
            omega
          · simp at hk
            rw [hk, hid]
            show s2.nextId < s2.nextId + 1
            omega
  · intro hex
    obtain ⟨ex, hexeq⟩ := hex
    unfold userListPost
    rw [hexeq]
    simp
  · intro a hinv
    obtain ⟨hnd, hfresh⟩ := hinv
    cases a with
    | false =>
      have hred : userListPost s3 false f3 l3 e pw adm3 =
          (.resp 403, s3) := by
        unfold userListPost
        simp
      rw [hred]
      exact ⟨hnd, hfresh⟩
    | true =>
      cases hex : p3_get_user_by_email s3 e with
      | some ex =>
        have hred : userListPost s3 true f3 l3 e pw adm3 =
            (.resp 400, s3) := by
          unfold userListPost
          rw [hex]
          simp
        rw [hred]
        exact ⟨hnd, hfresh⟩
      | none =>
        cases hc : User3.construct s3.nextId f3 l3 e pw adm3 with
        | error err =>
          have hred : userListPost s3 true f3 l3 e pw adm3 =
              (.raised err, { s3 with nextId := s3.nextId + 1 }) := by
            unfold userListPost p3_create_user
            rw [hex, hc]
            simp
          rw [hred]
          dsimp only
          refine ⟨hnd, ?_⟩
          intro k hk
          have := hfresh k hk
          show k < s3.nextId + 1
          omega
        | ok u =>
          have hu := user3_construct_ok hc
          have hred : userListPost s3 true f3 l3 e pw adm3 =
              (.resp 201,
               { user_repo := InMemoryRepository.add User3.id
                   s3.user_repo u,
                 nextId := s3.nextId + 1 }) := by
            unfold userListPost p3_create_user
            rw [hex, hc]
            simp
          rw [hred]
          dsimp only
          have hnone : dictGet s3.user_repo u.id = none := by
            apply dictGet_none_of_not_mem
            intro hmemk
            have := hfresh u.id hmemk
            rw [hu] at this
            simp at this
          have happ : InMemoryRepository.add User3.id s3.user_repo u =
              s3.user_repo ++ [(u.id, u)] := by
            unfold InMemoryRepository.add
            exact dictSet_of_get_none _ _ _ hnone
          have hnotin : ∀ v ∈ s3.user_repo.map Prod.snd, v.email ≠ e := by
            intro v hv hve
            obtain ⟨kv, hkv, hkvv⟩ := List.mem_map.mp hv
            have := List.find?_eq_none.mp hex v ?hmem
            · simp [hve] at this
            · exact hkvv ▸ List.mem_map_of_mem Prod.snd hkv
          refine ⟨?_, ?_⟩
          · simp only [happ, List.map_append]
            rw [List.nodup_append]
            refine ⟨hnd, by simp, ?_⟩
            intro x hx
            simp only [List.map_cons, List.map_nil, List.mem_singleton]
            intro hx2
            obtain ⟨kv, hkv, hkve⟩ := List.mem_map.mp hx
            have := hnotin kv.2 (List.mem_map_of_mem Prod.snd hkv)
            rw [hkve, hx2, hu] at this
            exact this rfl
          · intro k hk
            simp only [happ, List.map_append, List.mem_append] at hk
            rcases hk with hk | hk
            · have := hfresh k hk
              show k < s3.nextId + 1
              omega
            · simp at hk
              rw [hk, hu]
              show s3.nextId < s3.nextId + 1
              omega

/-- Witness for the C3 amended theorem at concrete states. -/
theorem user_email_uniqueness_witness :
    (HBnBFacade.create_user
        ⟨["a@b.c"], [(0, ⟨0, "A", "B", "a@b.c", false, []⟩)], 1⟩
        (.vStr "C") (.vStr "D") (.vStr "a@b.c") (.vBool false)).snd.user_repo
      = [(0, ⟨0, "A", "B", "a@b.c", false, []⟩)] ∧
    userListPost ⟨[(1, ⟨1, "A", "B", "a@b.c", "h", false⟩)], 2⟩ true
        "C" "D" "a@b.c" "pw" false =
      (.resp 400, ⟨[(1, ⟨1, "A", "B", "a@b.c", "h", false⟩)], 2⟩) := by
  have h := user_email_uniqueness
    ⟨["a@b.c"], [(0, ⟨0, "A", "B", "a@b.c", false, []⟩)], 1⟩
    (.vStr "C") (.vStr "D") (.vBool false) "a@b.c"
    ⟨[(1, ⟨1, "A", "B", "a@b.c", "h", false⟩)], 2⟩ "C" "D" "pw" false
  refine ⟨?_, ?_⟩
  · exact (h.1 (by constructor <;> decide)
      ⟨⟨0, "A", "B", "a@b.c", false, []⟩, by decide, rfl⟩).2.1
  · exact h.2.2.1 ⟨⟨1, "A", "B", "a@b.c", "h", false⟩, by decide⟩



/-- Inversion of a successful part3 Review construction. -/
theorem review_construct_ok {rid : Nat} {text : String} {rating : Int}
    {pid uid : Nat} {r : RevRec}
    (h : Review.construct rid text rating pid uid = .ok r) :
    r = ⟨rid, text, rating, pid, uid⟩ ∧ text ≠ "" ∧
      1 ≤ rating ∧ rating ≤ 5 := by
  unfold Review.construct validate_text validate_rating at h
  by_cases ht : text = ""
  · simp [ht] at h
  · rw [if_neg ht] at h
    by_cases hr : 1 ≤ rating ∧ rating ≤ 5
    · rw [if_neg (by simpa using hr)] at h
      have h2 : (Except.ok (⟨rid, text, rating, pid, uid⟩ : RevRec) :
          Except PyErr RevRec) = .ok r := h
      injection h2 with h3
      exact ⟨h3.symm, ht, hr.1, hr.2⟩
    · rw [if_pos (by simpa using hr)] at h
      have h2 : (Except.error (.valueError "Rating must be between 1 and 5")
          : Except PyErr RevRec) = .ok r := h
      exact Except.noConfusion h2

/-- Inversion of a modelled create_review that produced a review. -/
theorem create_review_ok_some {s : RState} {text : String} {rating : Int}
    {pid uid : Nat} {r : RevRec} {s2 : RState}
    (h : p3_create_review s text rating pid uid = .ok (some (r, s2))) :
    r = ⟨s.nextId, text, rating, pid, uid⟩ ∧
      s2 = { s with
        review_repo := (InMemoryRepository.add RevRec.rid s.review_repo r),
        nextId := s.nextId + 1 } := by
  unfold p3_create_review at h
  by_cases hc : (s.users.contains uid &&
      (get_place s pid).isSome) = true
  · rw [if_pos hc] at h
    cases hr : Review.construct s.nextId text rating pid uid with
    | error e =>
      rw [hr] at h
      exact Except.noConfusion h
    | ok r2 =>
      rw [hr] at h
      obtain ⟨hr2, -, -, -⟩ := review_construct_ok hr
      injection h with h2
      injection h2 with h3
      obtain ⟨h5, h6⟩ := Prod.mk.injEq .. |>.mp h3
      subst h5
      exact ⟨hr2, h6.symm⟩
  · rw [if_neg hc] at h
    injection h with h2
    exact Option.noConfusion h2

/-- One non-admin review post preserves the review-system invariant. -/
theorem reviewStep_preserves_RInv (s : RState) (q : ReviewReq)
    (hinv : RInv s) : RInv (reviewStep s q) := by
  obtain ⟨hkeys, hpairs, hself, hpl⟩ := hinv
  unfold reviewStep
  cases hgp : get_place s q.place_id with
  | none =>
    have hred : reviewListPost s q.caller false q.text q.rating
        q.place_id = (.resp 404, s) := by
      unfold reviewListPost
      rw [hgp]
    rw [hred]
    exact ⟨hkeys, hpairs, hself, hpl⟩
  | some place =>
    by_cases howner : place.owner_id = q.caller
    · have hred : reviewListPost s q.caller false q.text q.rating
          q.place_id = (.resp 400, s) := by
        unfold reviewListPost
        rw [hgp]
        simp [howner]
      rw [hred]
      exact ⟨hkeys, hpairs, hself, hpl⟩
    · by_cases hdup : (place_reviews s q.place_id).filter
          (fun r => r.user_id == q.caller) = []
      · cases hcr : p3_create_review s q.text q.rating q.place_id
            q.caller with
        | error e =>
          have hred : reviewListPost s q.caller false q.text q.rating
              q.place_id = (.raised e, s) := by
            unfold reviewListPost
            rw [hgp]
            simp [howner, hdup, hcr]
          rw [hred]
          exact ⟨hkeys, hpairs, hself, hpl⟩
        | ok o =>
          cases o with
          | none =>
            have hred : reviewListPost s q.caller false q.text q.rating
                q.place_id = (.resp 400, s) := by
              unfold reviewListPost
              rw [hgp]
              simp [howner, hdup, hcr]
            rw [hred]
            exact ⟨hkeys, hpairs, hself, hpl⟩
          | some pr =>
            obtain ⟨r, s2⟩ := pr
            have hred : reviewListPost s q.caller false q.text q.rating
                q.place_id = (.resp 201, s2) := by
              unfold reviewListPost
              rw [hgp]
              simp [howner, hdup, hcr]
            rw [hred]
            obtain ⟨hr, hs2⟩ := create_review_ok_some hcr
            have hnone : dictGet s.review_repo s.nextId = none := by
              apply dictGet_none_of_not_mem
              intro hmemk
              have := hkeys s.nextId hmemk
              omega
            have happ : InMemoryRepository.add RevRec.rid s.review_repo r
                = s.review_repo ++ [(r.rid, r)] := by
              unfold InMemoryRepository.add
              apply dictSet_of_get_none
              rw [hr]
              exact hnone
            have hplace_mem : place ∈ s.places :=
              List.mem_of_find?_eq_some hgp
            have hplace_pid : place.pid = q.place_id := by
              have := List.find?_some hgp
              simpa using this
            have hnodup2 : ∀ rv ∈ s.review_repo.map Prod.snd,
                ¬ (rv.user_id = q.caller ∧ rv.place_id = q.place_id) := by
              intro rv hrv ⟨hru, hrp⟩
              have hmem : rv ∈ place_reviews s q.place_id := by
                unfold place_reviews
                rw [List.mem_filter]
                exact ⟨hrv, by simp [hrp]⟩
              have := List.filter_eq_nil_iff.mp hdup rv hmem
              simp [hru] at this
            subst hs2
            refine ⟨?_, ?_, ?_, hpl⟩
            · intro k hk
              simp only [happ, List.map_append, List.mem_append] at hk
              show k < s.nextId + 1
              rcases hk with hk | hk
              · have := hkeys k hk
                omega
              · simp at hk
                rw [hk, hr]
                show s.nextId < s.nextId + 1
                omega
            · show (reviewPairs _).Nodup
              unfold reviewPairs at hpairs ⊢
              simp only [happ]
              rw [List.map_append, List.map_append, List.nodup_append]
              refine ⟨hpairs, by simp, ?_⟩
              intro x hx
              simp only [List.map_cons, List.map_nil,
                List.mem_singleton]
              intro hx2
              obtain ⟨rv, hrv, hrveq⟩ := List.mem_map.mp hx
              apply hnodup2 rv hrv
              rw [hx2, hr] at hrveq
              have h1 := congrArg Prod.fst hrveq
              have h2 := congrArg Prod.snd hrveq
              simp at h1 h2
              exact ⟨h1, h2⟩
            · intro rv hrv p hp hpid
              simp only [happ, List.map_append, List.mem_append] at hrv
              rcases hrv with hrv | hrv
              · exact hself rv hrv p hp hpid
              · simp at hrv
                rw [hrv, hr] at hpid ⊢
                have hpid2 : p.pid = q.place_id := by simpa using hpid
                have hpp : p = place := by
                  apply List.inj_on_of_nodup_map hpl hp hplace_mem
                  rw [hplace_pid, hpid2]
                rw [hpp]
                simpa using howner
      · have hred : reviewListPost s q.caller false q.text q.rating
            q.place_id = (.resp 400, s) := by
          unfold reviewListPost
          rw [hgp]
          simp [howner, hdup]
        rw [hred]
        exact ⟨hkeys, hpairs, hself, hpl⟩

/-- Any sequence of non-admin review posts preserves the invariant. -/
theorem reviewSeq_preserves_RInv (reqs : List ReviewReq) (s : RState)
    (hinv : RInv s) : RInv (reqs.foldl reviewStep s) := by
  induction reqs generalizing s with
  | nil => exact hinv
  | cons q rest ih =>
    exact ih (reviewStep s q) (reviewStep_preserves_RInv s q hinv)



/-- C1 counterexample: a non-admin caller, an existing place not owned
by the caller, no prior review by the caller — yet the request does not
return 201: with rating 6 the Review construction raises an uncaught
ValueError (the handler has no branch for it), so the "otherwise 201"
reading of the claim fails. -/
theorem review_post_counterexample :
    get_place ⟨[1, 2], [⟨10, 1⟩], [], 0⟩ 10 = some ⟨10, 1⟩ ∧
      (⟨10, 1⟩ : PlaceRec).owner_id ≠ 2 ∧
      place_reviews ⟨[1, 2], [⟨10, 1⟩], [], 0⟩ 10 = [] ∧
      (2 : Nat) ∈ ([1, 2] : List Nat) ∧
      (reviewListPost ⟨[1, 2], [⟨10, 1⟩], [], 0⟩ 2 false "nice" 6 10).fst
        = .raised (.valueError "Rating must be between 1 and 5") ∧
      (reviewListPost ⟨[1, 2], [⟨10, 1⟩], [], 0⟩ 2 false "nice" 6 10).fst
        ≠ .resp 201 := by
  decide

/-- C1 amended: for a non-admin caller, POST /reviews/ returns 404 when
the place is missing, 400 on self-review, 400 on a duplicate review;
otherwise, provided the payload passes Review validation (non-empty
text, rating 1..5) and the caller id names an existing user, it stores
the review and returns 201 (an invalid payload instead raises an
uncaught ValidationError, and an unknown caller yields 400); and any
sequence of such requests preserves the invariant that there is at most
one review per (user, place) pair and no review authored by the owner
of the reviewed place. -/
theorem review_post_spec (s : RState) (c : Nat) (text : String)
    (rating : Int) (pid : Nat) (reqs : List ReviewReq) :
    (get_place s pid = none →
      reviewListPost s c false text rating pid = (.resp 404, s)) ∧
      (∀ place, get_place s pid = some place → place.owner_id = c →
        reviewListPost s c false text rating pid = (.resp 400, s)) ∧
      (∀ place, get_place s pid = some place → place.owner_id ≠ c →
        (place_reviews s pid).filter (fun r => r.user_id == c) ≠ [] →
        reviewListPost s c false text rating pid = (.resp 400, s)) ∧
      (∀ place, get_place s pid = some place → place.owner_id ≠ c →
        (place_reviews s pid).filter (fun r => r.user_id == c) = [] →
        c ∈ s.users → text ≠ "" → 1 ≤ rating → rating ≤ 5 →
        reviewListPost s c false text rating pid =
          (.resp 201,
           { s with
             review_repo := (InMemoryRepository.add RevRec.rid
               s.review_repo ⟨s.nextId, text, rating, pid, c⟩),
             nextId := s.nextId + 1 })) ∧
      (RInv s → RInv (reqs.foldl reviewStep s)) := by
  refine ⟨?_, ?_, ?_, ?_, reviewSeq_preserves_RInv reqs s⟩
  · intro hgp
    unfold reviewListPost
    rw [hgp]
  · intro place hgp howner
    unfold reviewListPost
    rw [hgp]
    simp [howner]
  · intro place hgp howner hdup
    unfold reviewListPost
    rw [hgp]
    simp [howner, hdup]
  · intro place hgp howner hdup hc ht h1 h5
    have hcr : p3_create_review s text rating pid c =
        .ok (some (⟨s.nextId, text, rating, pid, c⟩,
          { s with
            review_repo := (InMemoryRepository.add RevRec.rid
              s.review_repo ⟨s.nextId, text, rating, pid, c⟩),
            nextId := s.nextId + 1 })) := by
      unfold p3_create_review
      have hcond : (s.users.contains c && (get_place s pid).isSome)
          = true := by
        have hcont : s.users.contains c = true := List.elem_iff.mpr hc
        rw [hgp, hcont]
        rfl
      rw [if_pos hcond]
      have hrc : Review.construct s.nextId text rating pid c =
          .ok ⟨s.nextId, text, rating, pid, c⟩ := by
        unfold Review.construct validate_text validate_rating
        rw [if_neg ht, if_neg (by omega)]
      rw [hrc]
    unfold reviewListPost
    rw [hgp]
    simp [howner, hdup, hcr]

/-- Witness for the C1 amended theorem at a concrete state. -/
theorem review_post_spec_witness :
    reviewListPost ⟨[1, 2], [⟨10, 1⟩], [], 0⟩ 2 false "nice" 5 10 =
      (.resp 201, ⟨[1, 2], [⟨10, 1⟩], [(0, ⟨0, "nice", 5, 10, 2⟩)], 1⟩) ∧
    RInv (([⟨2, "nice", 5, 10⟩] : List ReviewReq).foldl reviewStep
        ⟨[1, 2], [⟨10, 1⟩], [], 0⟩) := by
  have h := review_post_spec ⟨[1, 2], [⟨10, 1⟩], [], 0⟩ 2 "nice" 5 10
    [⟨2, "nice", 5, 10⟩]
  constructor
  · exact h.2.2.2.1 ⟨10, 1⟩ (by decide) (by decide) (by decide)
      (by decide) (by decide) (by decide) (by decide)
  · exact h.2.2.2.2 (by unfold RInv reviewPairs; decide)



/-- The duplicate-review test of the handler (a non-empty filtered list)
matches membership of the caller among the prior reviewer identities. -/
theorem reviewers_contains_iff (s : RState) (pid c : Nat) :
    (review_reviewers_proj s pid).contains c = true ↔
      (place_reviews s pid).filter (fun r => r.user_id == c) ≠ [] := by
  unfold review_reviewers_proj
  rw [List.elem_iff]
  constructor
  · intro hmem
    obtain ⟨rv, hrv, hrvc⟩ := List.mem_map.mp hmem
    intro hnil
    have := List.filter_eq_nil_iff.mp hnil rv hrv
    simp [hrvc] at this
  · intro hne
    rcases hfe : (place_reviews s pid).filter
        (fun r => r.user_id == c) with _ | ⟨rv, rest⟩
    · exact absurd hfe hne
    · have hmem : rv ∈ (place_reviews s pid).filter
          (fun r => r.user_id == c) := by
        rw [hfe]
        exact List.mem_cons_self rv rest
      rw [List.mem_filter] at hmem
      refine List.mem_map.mpr ⟨rv, hmem.1, ?_⟩
      have := hmem.2
      simpa using this.symm

/-- C9 counterexample: two states agree on every input the claim lists —
caller identity and admin claim, the owner of the target place, and the
requested fields — yet the handler allows the request in one state
(201) and rejects it in the other (400, duplicate review), because the
decision also reads the prior reviews from the store. -/
theorem decide_not_function_of_claimed_inputs :
    review_owner_proj ⟨[1, 2], [⟨10, 1⟩], [], 0⟩ 10 =
        review_owner_proj
          ⟨[1, 2], [⟨10, 1⟩], [(0, ⟨0, "ok", 5, 10, 2⟩)], 1⟩ 10 ∧
      (reviewListPost ⟨[1, 2], [⟨10, 1⟩], [], 0⟩ 2 false "x" 4 10).fst =
        .resp 201 ∧
      (reviewListPost ⟨[1, 2], [⟨10, 1⟩], [(0, ⟨0, "ok", 5, 10, 2⟩)], 1⟩
        2 false "x" 4 10).fst = .resp 400 ∧
      (HRes.resp 201) ≠ (HRes.resp 400) := by
  decide

/-- C9 amended: each handler factors through a pure decision function —
deterministic by construction — whose inputs are the caller identity
and admin claim, the target owner/author (and its existence), the
requested mutation fields, and the store contents the rules consult:
the prior reviewer identities of the place for POST /reviews/, and the
email-collision bit for PUT /users/{id}.  With those inputs fixed, two
evaluations always produce the same Allow/Reject outcome. -/
theorem decide_factorization (s : RState) (sp : P3State)
    (c caller target : Nat) (a : Bool) (text : String) (rating : Int)
    (pid : Nat) (p : UserPayload) :
    (reviewListPost s c a text rating pid =
      match decide_review_post a c (review_owner_proj s pid)
          (review_reviewers_proj s pid) with
      | .reject code => (.resp code, s)
      | .allow =>
        match p3_create_review s text rating pid c with
        | .error e => (.raised e, s)
        | .ok none => (.resp 400, s)
        | .ok (some (_, s2)) => (.resp 201, s2)) ∧
      (userResourcePut sp caller a target p =
        match decide_user_put a caller target
            (dictGet sp.user_repo target).isSome p.email p.password.isSome
            (user_put_collides sp target p.email) with
        | .reject code => (.resp code, sp)
        | .allow => (.resp 200, p3_update_user sp target p)) := by
  constructor
  · unfold reviewListPost decide_review_post review_owner_proj
    cases hgp : get_place s pid with
    | none => rfl
    | some place =>
      cases a with
      | true =>
        simp only [Option.map_some, Bool.not_true, false_and, if_false,
          ite_false, reduceIte, false_and]
        simp
      | false =>
        by_cases howner : place.owner_id = c
        · simp [howner]
        · by_cases hdup : (place_reviews s pid).filter
              (fun r => r.user_id == c) = []
          · have hnmem : c ∉ review_reviewers_proj s pid := by
              intro hmem
              exact (reviewers_contains_iff s pid c).mp
                (List.elem_iff.mpr hmem) hdup
            simp [howner, hdup, hnmem]
          · have hmem : c ∈ review_reviewers_proj s pid :=
              List.elem_iff.mp ((reviewers_contains_iff s pid c).mpr hdup)
            simp [howner, hdup, hmem]
  · unfold userResourcePut decide_user_put user_put_collides
    cases hu : dictGet sp.user_repo target with
    | none => rfl
    | some u =>
      cases a with
      | true =>
        cases hpe : p.email with
        | none => simp
        | some e =>
          cases hex : p3_get_user_by_email sp e with
          | none => simp [hex]
          | some ex =>
            by_cases hid : ex.id = target
            · simp [hex, hid]
            · simp [hex, hid]
      | false =>
        by_cases hct : caller = target
        · by_cases hkeys : (p.email.isSome || p.password.isSome) = true
          · simp [hct, hkeys]
          · simp [hct, hkeys]
        · simp [hct]



/-- Witness for the C4 theorem at concrete boundary ratings. -/
theorem rating_checks_agree_witness :
    (validate_rating 5 = .ok () ↔ rating_setter_check 5 = .ok ()) ∧
      (validate_rating 1 = .ok () ↔ rating_setter_check 1 = .ok ()) ∧
      validate_rating 5 = .ok () ∧ validate_rating 1 = .ok () := by
  have h5 := rating_checks_agree 5
  have h1 := rating_checks_agree 1
  exact ⟨h5.1, h1.1, h5.2.1.mpr (by decide), h1.2.1.mpr (by decide)⟩


end HBnB
